import Mathlib

/-!
Verification development for the Siamese streaming erasure-code encoder.

The definitions below are a shallow embedding of the C++ encoder sources
(`SiameseEncoder.cpp` / `SiameseEncoder.h`, with constants from `siamese.h`
and the PCG generator from `SiameseTools.h`).  Machine integers are modelled
as `Nat` with explicit reductions modulo the 22-bit column period where the
C++ code masks; byte buffers are `List Nat`; the arena allocator is modelled
as infinite memory, with an explicit `allocOk` flag reproducing the
out-of-memory branches that set the encoder's emergency-disabled flag.

Helpers whose C++ source is not part of the encoder sources (the wire
serializers, the GF(256) primitives and a few codec constants from
`SiameseCommon.h` / `SiameseSerializers.h` / `gf256.h`) are modelled from the
specification and marked `Modelled from the spec` in their doc comments.
-/

set_option maxHeartbeats 1000000

namespace Siamese

/-! ### Codec constants -/

/-- Number of column lanes (`kColumnLaneCount = 8`). -/
def kColumnLaneCount : Nat := 8

/-- Number of running sums per lane (`kColumnSumCount = 3`). -/
def kColumnSumCount : Nat := 3

/-- Size of the 22-bit packet-number space (`SIAMESE_PACKET_NUM_COUNT`). -/
def kColumnPeriod : Nat := 0x400000

/-- Maximum number of packets in the window (`SIAMESE_MAX_PACKETS`). -/
def siameseMaxPackets : Nat := 16000

/-- Modelled from the spec: `kSubwindowSize` is a fixed power of two defined
in the missing `SiameseCommon.h`; the spec only requires it to be fixed. -/
def kSubwindowSize : Nat := 64

/-- Threshold number of elements before removing data
(`kEncoderRemoveThreshold = 2 * kSubwindowSize`, from `SiameseEncoder.h`). -/
def kEncoderRemoveThreshold : Nat := 2 * kSubwindowSize

/-- Modelled from the spec: `SIAMESE_CAUCHY_THRESHOLD` from the missing
common header; the spec constrains `SUM_RESET_THRESHOLD ≤ CAUCHY_THRESHOLD`
and that a window of 3 packets is below it while 2000 is above it. -/
def kCauchyThreshold : Nat := 5

/-- Modelled from the spec: `SIAMESE_SUM_RESET_THRESHOLD` (see
`kCauchyThreshold`). -/
def kSumResetThreshold : Nat := 4

/-- Modelled from the spec: the period of the Siamese row generator. -/
def kRowPeriod : Nat := 256

/-- Modelled from the spec: number of Cauchy rows shared with the decoder. -/
def kCauchyMaxRows : Nat := 64

/-- Modelled from the spec: number of Cauchy columns shared with the decoder. -/
def kCauchyMaxColumns : Nat := 128

/-- Modelled from the spec: LDPC pair rate, `pair_count = ceil(count / kPairAddRate)`. -/
def kPairAddRate : Nat := 16

/-- Modelled from the spec: upper bound on the recovery-metadata footer size
(`SIAMESE_MAX_ENCODE_OVERHEAD = 8` in `siamese.h`). -/
def kMaxRecoveryMetadataBytes : Nat := 8

/-- SIMD alignment in bytes (allocations are 16-byte aligned per `siamese.h`). -/
def kAlignmentBytes : Nat := 16

/-- `NextAlignedOffset` from `SiameseTools.h`: round up to a multiple of 16. -/
def nextAlignedOffset (offset : Nat) : Nat :=
  (offset + kAlignmentBytes - 1) / kAlignmentBytes * kAlignmentBytes

/-! ### Modular column arithmetic (22-bit space) -/

/-- `AddColumns`: addition modulo `kColumnPeriod`. -/
def addColumns (a b : Nat) : Nat := (a + b) % kColumnPeriod

/-- `SubtractColumns`: subtraction modulo `kColumnPeriod`. -/
def subtractColumns (a b : Nat) : Nat :=
  (a % kColumnPeriod + kColumnPeriod - b % kColumnPeriod) % kColumnPeriod

/-- `IncrementColumn1` / `SIAMESE_PACKET_NUM_INC`. -/
def incrementColumn1 (a : Nat) : Nat := (a + 1) % kColumnPeriod

/-- `IsColumnDeltaNegative`: the delta lies in the upper half of the
22-bit space. -/
def isColumnDeltaNegative (delta : Nat) : Bool :=
  decide (kColumnPeriod / 2 ≤ delta)

/-! ### GF(256) primitives

Modelled from the spec: the GF(256) arithmetic primitives live in the
external `gf256` library and are assumed available as pure functions.
Addition is bytewise XOR; multiplication is carry-less multiplication
reduced by a degree-8 field polynomial. -/

/-- Modelled from the spec: GF(256) multiplication of two bytes
(Russian-peasant multiplication with polynomial reduction). -/
def gfMulAux : Nat → Nat → Nat → Nat → Nat
  | 0, _, _, acc => acc
  | n + 1, a, b, acc =>
    let acc2 := if b % 2 = 1 then acc ^^^ a else acc
    let a2 := if 128 ≤ a then ((a * 2) ^^^ 0x11D) % 256 else a * 2
    gfMulAux n a2 (b / 2) acc2

/-- Modelled from the spec: `gf256_mul`. -/
def gfMul (a b : Nat) : Nat := gfMulAux 8 (a % 256) (b % 256) 0

/-- Modelled from the spec: `gf256_sqr`. -/
def gfSqr (a : Nat) : Nat := gfMul a a

/-- `gf256_add_mem dst src bytes`: XOR the first `bytes` bytes of `src`
into `dst` in place. -/
def memAdd (dst src : List Nat) (bytes : Nat) : List Nat :=
  List.zipWith (fun a b => a ^^^ b) (dst.take bytes) (src.take bytes) ++ dst.drop bytes

/-- `gf256_muladd_mem dst y src bytes`: `dst[i] ^= y * src[i]` for `i < bytes`. -/
def memMulAdd (dst : List Nat) (y : Nat) (src : List Nat) (bytes : Nat) : List Nat :=
  List.zipWith (fun a b => a ^^^ gfMul y b) (dst.take bytes) (src.take bytes) ++ dst.drop bytes

/-- `gf256_mul_mem dst src y bytes`: `dst[i] = y * src[i]` for `i < bytes`. -/
def memMul (dst src : List Nat) (y bytes : Nat) : List Nat :=
  ((src.take bytes).map (gfMul y)) ++ dst.drop bytes

/-- Write `src` into `dst` starting at `offset` (memcpy at an offset). -/
def memWrite (dst : List Nat) (offset : Nat) (src : List Nat) : List Nat :=
  dst.take offset ++ src ++ dst.drop (offset + src.length)

/-- `GrowingAlignedDataBuffer::GrowZeroPadded`: grow to at least `bytes`
bytes, zero-padding the new region; never shrinks. -/
def growZeroPadded (buf : List Nat) (bytes : Nat) : List Nat :=
  if buf.length < bytes then buf ++ List.replicate (bytes - buf.length) 0 else buf

/-! ### Wire serializers

Modelled from the spec: `SiameseSerializers.h` is not among the encoder
sources.  The spec describes the formats as variable-length integers
(`varint`), so they are modelled as little-endian base-128 varints capped at
four bytes (enough for the 22-bit column space and 28-bit counts). -/

/-- Modelled from the spec: encode a value as a base-128 varint. -/
def encodeVarint (n : Nat) : List Nat :=
  if n < 0x80 then [n]
  else if n < 0x4000 then [n % 0x80 + 0x80, n / 0x80]
  else if n < 0x200000 then [n % 0x80 + 0x80, n / 0x80 % 0x80 + 0x80, n / 0x4000]
  else [n % 0x80 + 0x80, n / 0x80 % 0x80 + 0x80, n / 0x4000 % 0x80 + 0x80, n / 0x200000 % 0x80]

/-- Modelled from the spec: decode a base-128 varint from the front of a
byte list, returning the value and the number of bytes consumed, or `none`
on truncated or over-long input. -/
def decodeVarint (l : List Nat) : Option (Nat × Nat) :=
  match l with
  | [] => none
  | b0 :: rest0 =>
    if b0 < 0x80 then some (b0, 1)
    else
      match rest0 with
      | [] => none
      | b1 :: rest1 =>
        if b1 < 0x80 then some (b0 % 0x80 + b1 * 0x80, 2)
        else
          match rest1 with
          | [] => none
          | b2 :: rest2 =>
            if b2 < 0x80 then some (b0 % 0x80 + b1 % 0x80 * 0x80 + b2 * 0x4000, 3)
            else
              match rest2 with
              | [] => none
              | b3 :: _ =>
                if b3 < 0x80 then
                  some (b0 % 0x80 + b1 % 0x80 * 0x80 + b2 % 0x80 * 0x4000 + b3 * 0x200000, 4)
                else none

/-- Modelled from the spec: `DeserializeHeader_PacketNum`, parsing the
`next_column_expected` varint; the value lives in the 22-bit column space. -/
def deserializeHeaderPacketNum (data : List Nat) : Option (Nat × Nat) :=
  match decodeVarint data with
  | none => none
  | some (v, c) => some (v % kColumnPeriod, c)

/-- Modelled from the spec: `DeserializeHeader_NACKLossRange`, parsing a
`(relative_start, loss_count_minus_1)` pair of varints.  Returns the two
values and the number of bytes consumed. -/
def deserializeLossRange (data : List Nat) : Option (Nat × Nat × Nat) :=
  match decodeVarint data with
  | none => none
  | some (relativeStart, c1) =>
    match decodeVarint (data.drop c1) with
    | none => none
    | some (lossCountM1, c2) => some (relativeStart, lossCountM1, c1 + c2)

/-- Recovery-packet metadata footer contents (`RecoveryMetadata`). -/
structure RecoveryMetadata where
  sumCount : Nat
  ldpcCount : Nat
  columnStart : Nat
  row : Nat
deriving DecidableEq

/-- Modelled from the spec: `SerializeFooter_RecoveryMetadata`, a compact
serialization of `{sum_count, ldpc_count, column_start, row}` appended after
the recovery payload. -/
def serializeFooterRecoveryMetadata (m : RecoveryMetadata) : List Nat :=
  encodeVarint m.sumCount ++ encodeVarint m.ldpcCount ++
    [m.columnStart % 256, m.columnStart / 256 % 256, m.columnStart / 65536 % 64, m.row % 256]

/-! ### Data model -/

/-- Result codes (`SiameseResult` in `siamese.h`). -/
inductive SiameseResult where
  | success
  | invalidInput
  | needMoreData
  | maxPacketsReached
  | duplicateData
  | disabled
deriving DecidableEq

/-- An original packet stored in the window (`OriginalPacket`).  The buffer
holds the variable-length length header followed by the payload. -/
structure OriginalPacket where
  column : Nat := 0
  headerBytes : Nat := 0
  buffer : List Nat := []
  lastSendMsec : Nat := 0
deriving DecidableEq

instance : Inhabited OriginalPacket := ⟨{}⟩

/-- Modelled from the spec: `OriginalPacket::Initialize` (in the missing
`SiameseCommon.h`) copies the payload behind a variable-length encoded
length header and records the assigned column. -/
def initOriginal (column : Nat) (payload : List Nat) : OriginalPacket :=
  { column := column
    headerBytes := (encodeVarint payload.length).length
    buffer := encodeVarint payload.length ++ payload
    lastSendMsec := 0 }

/-- Per-lane running-sum state (`EncoderColumnLane`). -/
structure EncoderColumnLane where
  nextElement : List Nat
  sums : List (List Nat)
  longestPacket : Nat := 0
deriving DecidableEq

instance : Inhabited EncoderColumnLane := ⟨⟨[], [], 0⟩⟩

/-- Lane state after `ClearWindow` for lane `laneIndex`. -/
def clearedLane (laneIndex : Nat) : EncoderColumnLane :=
  { nextElement := List.replicate kColumnSumCount laneIndex
    sums := List.replicate kColumnSumCount []
    longestPacket := 0 }

/-- Encoder statistics counters (`EncoderStats`). -/
structure EncoderStats where
  originalCount : Nat := 0
  originalBytes : Nat := 0
  recoveryCount : Nat := 0
  recoveryBytes : Nat := 0
  retransmitCount : Nat := 0
  retransmitBytes : Nat := 0
  ackCount : Nat := 0
  ackBytes : Nat := 0
  memoryUsed : Nat := 0
deriving DecidableEq

/-- The statistics array in `SiameseEncoderStats` enumeration order. -/
def statsArray (s : EncoderStats) : List Nat :=
  [s.originalCount, s.originalBytes, s.recoveryCount, s.recoveryBytes,
   s.retransmitCount, s.retransmitBytes, s.ackCount, s.ackBytes, s.memoryUsed]

/-- The sliding packet window (`EncoderPacketWindow`).  `originals` is the
flat element storage (the concatenation of the subwindow arrays);
`subwindowCount` tracks how many subwindows have been allocated. -/
structure EncoderPacketWindow where
  nextColumn : Nat := 0
  count : Nat := 0
  columnStart : Nat := 0
  longestPacket : Nat := 0
  firstUnremovedElement : Nat := 0
  sumStartElement : Nat := 0
  sumEndElement : Nat := 0
  sumColumnStart : Nat := 0
  sumErasedCount : Nat := 0
  subwindowCount : Nat := 0
  originals : List OriginalPacket := []
  lanes : List EncoderColumnLane := (List.range kColumnLaneCount).map clearedLane
  emergencyDisabled : Bool := false
deriving DecidableEq

/-- `ColumnToElement`. -/
def columnToElement (w : EncoderPacketWindow) (column : Nat) : Nat :=
  subtractColumns column w.columnStart

/-- `ElementToColumn`. -/
def elementToColumn (w : EncoderPacketWindow) (element : Nat) : Nat :=
  addColumns element w.columnStart

/-- `InvalidElement`. -/
def invalidElement (w : EncoderPacketWindow) (element : Nat) : Bool :=
  decide (w.count ≤ element)

/-- `GetWindowElement`, total on the model via a default packet. -/
def getWindowElement (w : EncoderPacketWindow) (element : Nat) : OriginalPacket :=
  w.originals.getD element default

/-- `GetUnacknowledgedCount`. -/
def getUnacknowledgedCount (w : EncoderPacketWindow) : Nat :=
  w.count - w.firstUnremovedElement

/-- Store a packet at a given element index, extending the physical storage
with default-constructed slots as the subwindow arrays would provide. -/
def storeWindowElement (l : List OriginalPacket) (element : Nat) (p : OriginalPacket) :
    List OriginalPacket :=
  let l2 := if l.length ≤ element then l ++ List.replicate (element + 1 - l.length) default else l
  l2.set element p

/-- Apply an update to the lane at the given index. -/
def setLane (lanes : List EncoderColumnLane) (laneIndex : Nat)
    (f : EncoderColumnLane → EncoderColumnLane) : List EncoderColumnLane :=
  match lanes.get? laneIndex with
  | none => lanes
  | some lane => lanes.set laneIndex (f lane)

/-- Read the lane at the given index. -/
def getLane (w : EncoderPacketWindow) (laneIndex : Nat) : EncoderColumnLane :=
  w.lanes.getD laneIndex default

/-- `ClearWindow`. -/
def clearWindow (w : EncoderPacketWindow) : EncoderPacketWindow :=
  { w with firstUnremovedElement := 0
           count := 0
           longestPacket := 0
           sumStartElement := 0
           sumEndElement := 0
           lanes := (List.range kColumnLaneCount).map clearedLane }

/-- The window right after construction. -/
def initEncoderPacketWindow : EncoderPacketWindow :=
  clearWindow { nextColumn := 0, columnStart := 0 }

/-- `StartNewWindow`: start a fresh window at the given column, skipping
elements so that `element % 8 == column % 8`. -/
def startNewWindow (w : EncoderPacketWindow) (column : Nat) : EncoderPacketWindow :=
  let element := column % kColumnLaneCount
  { w with columnStart := column - element
           sumStartElement := element
           sumEndElement := element
           firstUnremovedElement := element
           count := element + 1
           longestPacket := 0
           lanes := w.lanes.map fun lane => { lane with longestPacket := 0 } }

/-- `EncoderPacketWindow::Add`.  Returns the result code, the assigned
packet number (if the code wrote one into the caller's packet), and the
updated window and statistics.  `allocOk = false` makes the first
allocation of the call fail. -/
def windowAdd (w : EncoderPacketWindow) (stats : EncoderStats) (allocOk : Bool)
    (payload : List Nat) :
    SiameseResult × Option Nat × EncoderPacketWindow × EncoderStats :=
  if w.emergencyDisabled then (.disabled, none, w, stats)
  else if siameseMaxPackets ≤ w.count then (.maxPacketsReached, none, w, stats)
  else
    let column := w.nextColumn
    let element := w.count
    let needAlloc := decide (w.subwindowCount * kSubwindowSize ≤ element + kColumnLaneCount)
    if needAlloc && !allocOk then
      (.disabled, some column, { w with emergencyDisabled := true }, stats)
    else
      let w1 := if needAlloc then { w with subwindowCount := w.subwindowCount + 1 } else w
      let ew :=
        if 0 < w1.count then (element, { w1 with count := w1.count + 1 })
        else (column % kColumnLaneCount, startNewWindow w1 column)
      let element2 := ew.1
      let w2 := ew.2
      if !allocOk then
        (.disabled, some column, { w2 with emergencyDisabled := true }, stats)
      else
        let original := initOriginal column payload
        let originalBytes := original.buffer.length
        let laneIndex := column % kColumnLaneCount
        let w3 :=
          { w2 with originals := storeWindowElement w2.originals element2 original
                    nextColumn := incrementColumn1 w2.nextColumn }
        let w4 :=
          { w3 with lanes := setLane w3.lanes laneIndex fun lane =>
              if lane.longestPacket < originalBytes then
                { lane with longestPacket := originalBytes }
              else lane }
        let w5 :=
          if w4.longestPacket < originalBytes then { w4 with longestPacket := originalBytes }
          else w4
        let stats2 :=
          { stats with originalCount := stats.originalCount + 1
                       originalBytes := stats.originalBytes + payload.length }
        (.success, some column, w5, stats2)

/-- `EncoderPacketWindow::RemoveBefore`. -/
def removeBefore (w : EncoderPacketWindow) (firstKeptColumn : Nat) : EncoderPacketWindow :=
  if w.emergencyDisabled then w
  else
    let firstKeptElement := columnToElement w firstKeptColumn
    if invalidElement w firstKeptElement then
      if isColumnDeltaNegative firstKeptElement then w
      else { w with count := 0 }
    else
      if w.firstUnremovedElement < firstKeptElement then
        { w with firstUnremovedElement := firstKeptElement }
      else w

/-- `GetNextLaneElement`: the first element `≥ element` in the given lane. -/
def getNextLaneElement (element laneIndex : Nat) : Nat :=
  let nextElement := element - element % kColumnLaneCount + laneIndex
  if nextElement < element then nextElement + kColumnLaneCount else nextElement

/-- `ResetSums`: recreate all lane sums from scratch after `elementStart`. -/
def resetSums (w : EncoderPacketWindow) (elementStart : Nat) : EncoderPacketWindow :=
  { w with lanes := (List.range kColumnLaneCount).map fun laneIndex =>
        { nextElement :=
            List.replicate kColumnSumCount (getNextLaneElement elementStart laneIndex)
          sums := List.replicate kColumnSumCount []
          longestPacket := (getLane w laneIndex).longestPacket }
           sumStartElement := elementStart
           sumEndElement := elementStart
           sumColumnStart := elementToColumn w elementStart
           sumErasedCount := 0 }

/-- Modelled from the spec: `GetColumnValue`, the deterministic nonzero
GF(256) coefficient of a column (definition lives in the missing
`SiameseCommon.h`; the spec only requires determinism and nonzero values). -/
def getColumnValue (column : Nat) : Nat := column % 255 + 1

/-- Modelled from the spec: `GetRowValue`, the nonzero row coefficient. -/
def getRowValue (row : Nat) : Nat := row % 255 + 1

/-- Modelled from the spec: `GetRowOpcode`, a deterministic 6-bit mask per
(lane, row) selecting lane sums for the recovery buffer (bits 0..2) and the
product workspace (bits 3..5). -/
def getRowOpcode (laneIndex row : Nat) : Nat := (laneIndex + 3 * row) % 63 + 1

/-- Modelled from the spec: `CauchyElement`, a deterministic GF(256)
matrix entry shared with the decoder. -/
def cauchyElement (row column : Nat) : Nat := (row * 89 + column * 7 + 1) % 256

/-- The accumulation loop inside `EncoderPacketWindow::GetSum`: accumulate
originals at `element, element + 8, …` while `< elementEnd`.  Returns
whether a buffer growth failed (setting the emergency flag in the caller),
the accumulated sum, and the element value to store into `NextElement`. -/
def getSumLoop (w : EncoderPacketWindow) (allocOk : Bool) (sumIndex element elementEnd : Nat)
    (sum : List Nat) : Bool × List Nat × Nat :=
  let original := getWindowElement w element
  let addBytes := original.buffer.length
  if !allocOk && decide (sum.length < addBytes) then (true, sum, element)
  else
    let sum1 := growZeroPadded sum addBytes
    let sum2 :=
      if sumIndex = 0 then memAdd sum1 original.buffer addBytes
      else
        let cx := getColumnValue original.column
        let cx2 := if sumIndex = 2 then gfSqr cx else cx
        memMulAdd sum1 cx2 original.buffer addBytes
    let element2 := element + kColumnLaneCount
    if element2 < elementEnd then getSumLoop w allocOk sumIndex element2 elementEnd sum2
    else (false, sum2, element2)
termination_by elementEnd - element
decreasing_by
  simp only [kColumnLaneCount] at *
  omega

/-- `EncoderPacketWindow::GetSum`: extend the running sum of the given lane
and sum index up to `elementEnd`, returning the updated window and the sum
buffer. -/
def getSum (w : EncoderPacketWindow) (allocOk : Bool) (laneIndex sumIndex elementEnd : Nat) :
    EncoderPacketWindow × List Nat :=
  let lane := getLane w laneIndex
  let element := lane.nextElement.getD sumIndex 0
  let sum0 := lane.sums.getD sumIndex []
  if element < elementEnd then
    if 0 < lane.longestPacket && !allocOk && decide (sum0.length < lane.longestPacket) then
      ({ w with emergencyDisabled := true }, sum0)
    else
      let sum1 := if 0 < lane.longestPacket then growZeroPadded sum0 lane.longestPacket else sum0
      let res := getSumLoop w allocOk sumIndex element elementEnd sum1
      if res.1 then
        ({ w with emergencyDisabled := true
                  lanes := setLane w.lanes laneIndex fun l =>
                    { l with sums := l.sums.set sumIndex res.2.1 } }, res.2.1)
      else
        ({ w with lanes := setLane w.lanes laneIndex fun l =>
              { l with sums := l.sums.set sumIndex res.2.1
                       nextElement := l.nextElement.set sumIndex res.2.2 } }, res.2.1)
  else (w, sum0)

/-- The sum roll-up in `RemoveElements`: for every lane and sum index,
flush the sum up to the removal boundary and subtract the removed count
from `NextElement`. -/
def rollLaneSums (w : EncoderPacketWindow) (allocOk : Bool) (removed : Nat) :
    EncoderPacketWindow :=
  (List.range kColumnLaneCount).foldl
    (fun wAcc laneIndex =>
      (List.range kColumnSumCount).foldl
        (fun wAcc2 sumIndex =>
          let w2 := (getSum wAcc2 allocOk laneIndex sumIndex removed).1
          { w2 with lanes := setLane w2.lanes laneIndex fun l =>
              { l with nextElement :=
                  l.nextElement.set sumIndex ((l.nextElement.getD sumIndex 0) - removed) } })
        wAcc)
    w

/-- The longest-packet recomputation at the end of `RemoveElements`. -/
def recomputeLongest (w : EncoderPacketWindow) : EncoderPacketWindow :=
  let indices := (List.range (w.count - w.firstUnremovedElement)).map
    (fun i => w.firstUnremovedElement + i)
  let longest := indices.foldl
    (fun acc i => max acc (getWindowElement w i).buffer.length) 0
  let laneLongest := fun laneIndex =>
    (indices.filter (fun i => i % kColumnLaneCount = laneIndex)).foldl
      (fun acc i => max acc (getWindowElement w i).buffer.length) 0
  { w with longestPacket := longest
           lanes := (List.range kColumnLaneCount).map fun laneIndex =>
             { getLane w laneIndex with longestPacket := laneLongest laneIndex } }

/-- The tail of `RemoveElements`: recompute the longest packets and reset
the sums when the sum range has emptied. -/
def removeElementsFinish (w : EncoderPacketWindow) : EncoderPacketWindow :=
  let w3 := recomputeLongest w
  if w3.sumEndElement ≤ w3.sumStartElement then resetSums w3 w3.firstUnremovedElement else w3

/-- `EncoderPacketWindow::RemoveElements`: compact the window by removing
whole subwindows before `FirstUnremovedElement`. -/
def removeElements (w : EncoderPacketWindow) (allocOk : Bool) : EncoderPacketWindow :=
  let firstKeptSubwindow := w.firstUnremovedElement / kSubwindowSize
  let removed := firstKeptSubwindow * kSubwindowSize
  let w1 :=
    if w.sumStartElement < w.sumEndElement then
      let wa := rollLaneSums w allocOk removed
      let wb :=
        if wa.sumStartElement < removed then
          { wa with sumErasedCount := wa.sumErasedCount + (removed - wa.sumStartElement) }
        else wa
      { wb with sumEndElement := wb.sumEndElement - removed
                sumStartElement := wb.sumStartElement - removed }
    else w
  let w2 :=
    { w1 with originals := w1.originals.drop removed
              count := w1.count - removed
              columnStart := elementToColumn w1 removed
              firstUnremovedElement := w1.firstUnremovedElement - removed }
  removeElementsFinish w2

/-! ### Acknowledgement state -/

/-- Padding appended to the copied loss-range data (`kPaddingBytes`). -/
def kPaddingBytes : Nat := 8

/-- `EncoderAcknowledgementState`.  `ackData` models the `Data` pointer:
`none` while it is null, otherwise the copied loss-range bytes. -/
structure EncoderAcknowledgementState where
  ackData : Option (List Nat) := none
  dataBytes : Nat := 0
  offset : Nat := 0
  lossColumn : Nat := 0
  lossCount : Nat := 0
  nextColumnExpected : Nat := 0
deriving DecidableEq

/-- `EncoderAcknowledgementState::DecodeNextRange`.  The loss-range data is
read with the eight zero guard bytes appended, exactly as the C++ decoder
reads `Data + Offset` with `DataBytes + kPaddingBytes - Offset` available. -/
def decodeNextRange (a : EncoderAcknowledgementState) :
    Bool × EncoderAcknowledgementState :=
  if a.dataBytes ≤ a.offset then (false, a)
  else
    match deserializeLossRange
        (((a.ackData.getD [] ++ List.replicate kPaddingBytes 0).drop a.offset).take
          (a.dataBytes + kPaddingBytes - a.offset)) with
    | none => (false, a)
    | some (relativeStart, lossCountM1, consumed) =>
      if a.dataBytes < a.offset + consumed then
        (false, { a with offset := a.offset + consumed })
      else
        (true, { a with offset := a.offset + consumed
                        lossColumn := addColumns a.lossColumn relativeStart
                        lossCount := lossCountM1 + 1 })

/-- `EncoderAcknowledgementState::OnAcknowledgementData`: parse the header,
skip duplicates, prune the window, copy the loss ranges and decode the
first one.  Returns whether the data was accepted, plus the updated ack
state and window. -/
def onAcknowledgementData (a : EncoderAcknowledgementState) (w : EncoderPacketWindow)
    (data : List Nat) : Bool × EncoderAcknowledgementState × EncoderPacketWindow :=
  match deserializeHeaderPacketNum data with
  | none => (false, a, w)
  | some (nextColumnExpected, headerBytes) =>
    let rest := data.drop headerBytes
    let bytes := rest.length
    if a.nextColumnExpected = nextColumnExpected ∧ a.ackData.isSome ∧
        bytes = a.dataBytes ∧ (a.ackData.getD []).take bytes = rest then
      (true, a, w)
    else
      let w1 := removeBefore w nextColumnExpected
      let a1 := { a with nextColumnExpected := nextColumnExpected
                         offset := 0
                         lossColumn := nextColumnExpected
                         lossCount := 0
                         dataBytes := bytes }
      if bytes = 0 then (true, a1, w1)
      else
        let a2 := { a1 with ackData := some rest }
        let res := decodeNextRange a2
        (res.1, res.2, w1)

/-- `GetNextLossColumn`: emit the next reported loss column, decoding the
next range when the current one is exhausted. -/
def getNextLossColumn (a : EncoderAcknowledgementState) :
    Option Nat × EncoderAcknowledgementState :=
  if a.lossCount = 0 then
    match decodeNextRange { a with lossColumn := incrementColumn1 a.lossColumn } with
    | (false, a1) => (none, a1)
    | (true, a1) =>
      (some a1.lossColumn,
       { a1 with lossColumn := incrementColumn1 a1.lossColumn
                 lossCount := a1.lossCount - 1 })
  else
    (some a.lossColumn,
     { a with lossColumn := incrementColumn1 a.lossColumn
              lossCount := a.lossCount - 1 })

/-- `RestartLossIterator`: rewind to the state just after ingestion. -/
def restartLossIterator (a : EncoderAcknowledgementState) :
    EncoderAcknowledgementState :=
  (decodeNextRange
    { a with offset := 0, lossColumn := a.nextColumnExpected, lossCount := 0 }).2

/-! Support lemmas for the well-founded recursion of the retransmit scan:
each loss range occupies at least one byte, so a successful range decode
strictly advances the offset. -/

theorem decodeVarint_consumed_pos {l : List Nat} {v c : Nat}
    (h : decodeVarint l = some (v, c)) : 0 < c := by
  unfold decodeVarint at h
  repeat' split at h
  all_goals simp_all
  all_goals omega

theorem deserializeLossRange_consumed_pos {l : List Nat} {r m c : Nat}
    (h : deserializeLossRange l = some (r, m, c)) : 0 < c := by
  unfold deserializeLossRange at h
  split at h
  · exact absurd h (by simp)
  · rename_i v1 c1 hv1
    split at h
    · exact absurd h (by simp)
    · rename_i v2 c2 hv2
      simp only [Option.some.injEq, Prod.mk.injEq] at h
      have := decodeVarint_consumed_pos hv1
      omega

theorem decodeNextRange_progress {a a1 : EncoderAcknowledgementState}
    (h : decodeNextRange a = (true, a1)) :
    a1.dataBytes = a.dataBytes ∧ a1.ackData = a.ackData ∧
      a.offset < a1.offset ∧ a1.offset ≤ a.dataBytes := by
  unfold decodeNextRange at h
  split at h
  · simp at h
  · split at h
    · simp at h
    · rename_i hguard v1 v2 c hrange
      split at h
      · simp at h
      · rename_i hbound
        simp only [Prod.mk.injEq, true_and] at h
        subst h
        have := deserializeLossRange_consumed_pos hrange
        refine ⟨rfl, rfl, ?_, ?_⟩ <;> simp <;> omega

theorem getNextLossColumn_progress {a a2 : EncoderAcknowledgementState} {column : Nat}
    (h : getNextLossColumn a = (some column, a2)) :
    a2.dataBytes = a.dataBytes ∧ a2.ackData = a.ackData ∧
      (a2.offset = a.offset ∧ a2.lossCount < a.lossCount ∨
       a.offset < a2.offset ∧ a2.offset ≤ a.dataBytes) := by
  unfold getNextLossColumn at h
  split at h
  · split at h
    · exact absurd h (by simp)
    · rename_i a1 hdec
      simp only [Option.some.injEq, Prod.mk.injEq] at h
      obtain ⟨-, rfl⟩ := h
      obtain ⟨hdb, hack, hlt, hle⟩ := decodeNextRange_progress hdec
      exact ⟨hdb, hack, Or.inr ⟨by simpa using hlt, by simpa using hle⟩⟩
  · rename_i hzero
    simp only [Option.some.injEq, Prod.mk.injEq] at h
    obtain ⟨-, rfl⟩ := h
    refine ⟨rfl, rfl, Or.inl ⟨rfl, ?_⟩⟩
    simp only []
    omega

/-- The scan loop inside `Encoder::Retransmit`: walk the loss columns until
one names a window original old enough to resend.  Returns the packet
number and payload on success, with the updated window (the original's
`LastSendMsec` refreshed) and iterator state. -/
def retransmitLoop (w : EncoderPacketWindow) (a : EncoderAcknowledgementState)
    (retransmitMsec nowMsec : Nat) :
    Option (Nat × List Nat) × EncoderPacketWindow × EncoderAcknowledgementState :=
  match h : getNextLossColumn a with
  | (none, a2) => (none, w, a2)
  | (some column, a2) =>
    if invalidElement w (columnToElement w column) then (none, w, a2)
    else if (getWindowElement w (columnToElement w column)).buffer.length = 0 then
      (none, w, a2)
    else if nowMsec - (getWindowElement w (columnToElement w column)).lastSendMsec <
        retransmitMsec then
      retransmitLoop w a2 retransmitMsec nowMsec
    else
      (some (column,
         (getWindowElement w (columnToElement w column)).buffer.drop
           (getWindowElement w (columnToElement w column)).headerBytes),
       { w with originals := (w.originals.set (columnToElement w column)
           ({ getWindowElement w (columnToElement w column) with lastSendMsec := nowMsec })) },
       a2)
termination_by (a.dataBytes + kPaddingBytes - a.offset, a.lossCount)
decreasing_by
  obtain ⟨hdb, -, hcase⟩ := getNextLossColumn_progress h
  rcases hcase with ⟨ho, hc⟩ | ⟨ho1, ho2⟩
  · rw [hdb, ho]
    exact Prod.Lex.right _ hc
  · exact Prod.Lex.left _ _ (by omega)

/-! ### PCG PRNG (from `SiameseTools.h`) -/

/-- PCG generator state. -/
structure PCGRandom where
  state : Nat
  inc : Nat
deriving DecidableEq

/-- `PCGRandom::Next`: 64-bit LCG step with 32-bit xorshift-rotate output. -/
def pcgNext (p : PCGRandom) : Nat × PCGRandom :=
  let oldstate := p.state
  let newstate := (oldstate * 6364136223846793005 + p.inc) % 2 ^ 64
  let xorshifted := (((oldstate >>> 18) ^^^ oldstate) >>> 27) % 2 ^ 32
  let rot := oldstate >>> 59
  let result := ((xorshifted >>> rot) ||| (xorshifted <<< ((32 - rot) % 32))) % 2 ^ 32
  (result, { p with state := newstate })

/-- `PCGRandom::Seed`. -/
def pcgSeed (y x : Nat) : PCGRandom :=
  let p0 : PCGRandom := { state := 0, inc := ((y <<< 1) ||| 1) % 2 ^ 64 }
  let p1 := (pcgNext p0).2
  let p2 := { p1 with state := (p1.state + x) % 2 ^ 64 }
  (pcgNext p2).2

/-! ### The encoder -/

/-- The encoder (`class Encoder`). -/
structure Encoder where
  stats : EncoderStats := {}
  window : EncoderPacketWindow := initEncoderPacketWindow
  ackState : EncoderAcknowledgementState := {}
  recoveryPacket : List Nat := []
  nextRow : Nat := 0
  nextParityColumn : Nat := 0
  nextCauchyRow : Nat := 0
  memoryAllocatedBytes : Nat := 0
deriving DecidableEq

/-- A freshly constructed encoder. -/
def initEncoder : Encoder := {}

/-- `Encoder::Add`. -/
def Encoder.add (e : Encoder) (allocOk : Bool) (payload : List Nat) :
    SiameseResult × Option Nat × Encoder :=
  let res := windowAdd e.window e.stats allocOk payload
  (res.1, res.2.1, { e with window := res.2.2.1, stats := res.2.2.2 })

/-- `Encoder::RemoveBefore`. -/
def Encoder.removeBefore (e : Encoder) (firstKeptColumn : Nat) : Encoder :=
  { e with window := Siamese.removeBefore e.window firstKeptColumn }

/-- `Encoder::Acknowledge`. -/
def Encoder.acknowledge (e : Encoder) (data : List Nat) : SiameseResult × Encoder :=
  if e.window.emergencyDisabled then (.disabled, e)
  else
    let res := onAcknowledgementData e.ackState e.window data
    if res.1 then
      (.success,
       { e with ackState := res.2.1, window := res.2.2
                stats := { e.stats with ackCount := e.stats.ackCount + 1
                                        ackBytes := e.stats.ackBytes + data.length } })
    else (.invalidInput, { e with ackState := res.2.1, window := res.2.2 })

/-- `Encoder::Retransmit`.  `nowMsec` stands for `GetTimeMsec()`.  The
successful output is the packet number and the payload with the length
header stripped. -/
def Encoder.retransmit (e : Encoder) (retransmitMsec nowMsec : Nat) :
    SiameseResult × Option (Nat × List Nat) × Encoder :=
  if e.window.emergencyDisabled then (.disabled, none, e)
  else if e.ackState.dataBytes = 0 then (.needMoreData, none, e)
  else
    match retransmitLoop e.window e.ackState retransmitMsec nowMsec with
    | (some out, w, a) =>
      (.success, some out,
       { e with window := w, ackState := a
                stats := { e.stats with
                  retransmitCount := e.stats.retransmitCount + 1
                  retransmitBytes := e.stats.retransmitBytes + out.2.length } })
    | (none, w, a) =>
      (.needMoreData, none, { e with window := w, ackState := restartLossIterator a })

/-- `Encoder::Get`: look up an original by packet number.  The successful
output is the stored payload with the length header stripped. -/
def Encoder.get (e : Encoder) (packetNum : Nat) :
    SiameseResult × Option (List Nat) × Encoder :=
  if e.window.emergencyDisabled then (.disabled, none, e)
  else
    let element := columnToElement e.window packetNum
    if invalidElement e.window element then (.needMoreData, none, e)
    else
      let original := getWindowElement e.window element
      if original.buffer.length = 0 then (.needMoreData, none, e)
      else (.success, some (original.buffer.drop original.headerBytes), e)

/-- `Encoder::GenerateSinglePacket`: emit the one unremoved original with a
`{1, 1, column, 0}` metadata footer appended; no GF(256) arithmetic. -/
def Encoder.generateSinglePacket (e : Encoder) (allocOk : Bool) :
    SiameseResult × Option (List Nat) × Encoder :=
  let original := getWindowElement e.window e.window.firstUnremovedElement
  if !allocOk then
    (.disabled, none, { e with window := { e.window with emergencyDisabled := true } })
  else
    let footer := serializeFooterRecoveryMetadata
      { sumCount := 1, ldpcCount := 1, columnStart := original.column, row := 0 }
    let out := original.buffer ++ footer
    (.success, some out,
     { e with stats := { e.stats with
         recoveryCount := e.stats.recoveryCount + 1
         recoveryBytes := e.stats.recoveryBytes + out.length } })

/-- The parity accumulation loop in `Encoder::GenerateCauchyPacket`: XOR
each remaining unremoved original into the recovery buffer, tracking the
longest contributing original (`usedBytes`). -/
def parityAccumulate (w : EncoderPacketWindow) (firstElement : Nat) (buf : List Nat)
    (used : Nat) : List Nat × Nat :=
  ((List.range (w.count - (firstElement + 1))).map (fun i => firstElement + 1 + i)).foldl
    (fun acc element =>
      let original := getWindowElement w element
      (memAdd acc.1 original.buffer original.buffer.length,
       max acc.2 original.buffer.length))
    (buf, used)

/-- The Cauchy accumulation loop in `Encoder::GenerateCauchyPacket`:
multiply-accumulate each remaining unremoved original with its Cauchy
coefficient, cycling the Cauchy column index. -/
def cauchyAccumulate (w : EncoderPacketWindow) (cauchyRow firstElement : Nat)
    (buf : List Nat) (used cauchyColumn : Nat) : List Nat × Nat :=
  let res :=
    ((List.range (w.count - (firstElement + 1))).map (fun i => firstElement + 1 + i)).foldl
      (fun acc element =>
        let column2 := (acc.2.2 + 1) % kCauchyMaxColumns
        let original := getWindowElement w element
        let y := cauchyElement cauchyRow column2
        (memMulAdd acc.1 y original.buffer original.buffer.length,
         max acc.2.1 original.buffer.length, column2))
      (buf, used, cauchyColumn)
  (res.1, res.2.1)

/-- `Encoder::GenerateCauchyPacket`: emit a parity row (row 0) when
`NextParityColumn` has fallen inside the unremoved region, otherwise the
next Cauchy row. -/
def Encoder.generateCauchyPacket (e : Encoder) (allocOk : Bool) :
    SiameseResult × Option (List Nat) × Encoder :=
  let w := e.window
  let firstElement := w.firstUnremovedElement
  let recoveryBytes := w.longestPacket
  if !allocOk then
    (.disabled, none, { e with window := { w with emergencyDisabled := true } })
  else
    let unacknowledgedCount := getUnacknowledgedCount w
    let metaColumnStart := elementToColumn w firstElement
    let nextParityElement := columnToElement w e.nextParityColumn
    let original0 := getWindowElement w firstElement
    let originalBytes0 := original0.buffer.length
    if nextParityElement ≤ firstElement ∨ isColumnDeltaNegative nextParityElement then
      let buf0 := original0.buffer ++ List.replicate (recoveryBytes - originalBytes0) 0
      let acc := parityAccumulate w firstElement buf0 originalBytes0
      let footer := serializeFooterRecoveryMetadata
        { sumCount := unacknowledgedCount, ldpcCount := unacknowledgedCount
          columnStart := metaColumnStart, row := 0 }
      let out := acc.1.take acc.2 ++ footer
      (.success, some out,
       { e with nextParityColumn := addColumns metaColumnStart unacknowledgedCount
                recoveryPacket := memWrite acc.1 acc.2 footer
                stats := { e.stats with
                  recoveryCount := e.stats.recoveryCount + 1
                  recoveryBytes := e.stats.recoveryBytes + out.length } })
    else
      let cauchyRow := e.nextCauchyRow
      let nextCauchyRow2 := if kCauchyMaxRows ≤ cauchyRow + 1 then 0 else cauchyRow + 1
      let cauchyColumn0 := metaColumnStart % kCauchyMaxColumns
      let y0 := cauchyElement cauchyRow cauchyColumn0
      let buf0 := (original0.buffer.map (gfMul y0)) ++
        List.replicate (recoveryBytes - originalBytes0) 0
      let acc := cauchyAccumulate w cauchyRow firstElement buf0 originalBytes0 cauchyColumn0
      let footer := serializeFooterRecoveryMetadata
        { sumCount := unacknowledgedCount, ldpcCount := unacknowledgedCount
          columnStart := metaColumnStart, row := cauchyRow + 1 }
      let out := acc.1.take acc.2 ++ footer
      (.success, some out,
       { e with nextCauchyRow := nextCauchyRow2
                recoveryPacket := memWrite acc.1 acc.2 footer
                stats := { e.stats with
                  recoveryCount := e.stats.recoveryCount + 1
                  recoveryBytes := e.stats.recoveryBytes + out.length } })

/-- `Encoder::AddDenseColumns`: fold the lane sums selected by the row
opcode into the recovery buffer (bits 0..2) and the product workspace
(bits 3..5), then record `SumEndElement = Count`. -/
def addDenseColumns (w : EncoderPacketWindow) (allocOk : Bool) (row : Nat)
    (recovery product : List Nat) (recoveryBytes : Nat) :
    EncoderPacketWindow × List Nat × List Nat :=
  let res := (List.range kColumnLaneCount).foldl
    (fun acc laneIndex =>
      let opcode := getRowOpcode laneIndex row
      let acc1 := (List.range kColumnSumCount).foldl
        (fun acc2 sumIndex =>
          if opcode / 2 ^ sumIndex % 2 = 1 then
            let res2 := getSum acc2.1 allocOk laneIndex sumIndex acc2.1.count
            let addBytes := min res2.2.length recoveryBytes
            (res2.1,
             if 0 < res2.2.length then memAdd acc2.2.1 res2.2 addBytes else acc2.2.1,
             acc2.2.2)
          else acc2)
        acc
      (List.range kColumnSumCount).foldl
        (fun acc2 sumIndex =>
          if opcode / 2 ^ (kColumnSumCount + sumIndex) % 2 = 1 then
            let res2 := getSum acc2.1 allocOk laneIndex sumIndex acc2.1.count
            let addBytes := min res2.2.length recoveryBytes
            (res2.1, acc2.2.1,
             if 0 < res2.2.length then memAdd acc2.2.2 res2.2 addBytes else acc2.2.2)
          else acc2)
        acc1)
    (w, recovery, product)
  ({ res.1 with sumEndElement := res.1.count }, res.2)

/-- `Encoder::AddLightColumns`: XOR PRNG-selected LDPC pairs into the
recovery buffer and the product workspace. -/
def addLightColumns (w : EncoderPacketWindow) (row : Nat) (recovery product : List Nat) :
    List Nat × List Nat :=
  let startElement := w.firstUnremovedElement
  let count := w.sumEndElement - startElement
  let pairCount := (count + kPairAddRate - 1) / kPairAddRate
  let res := (List.range pairCount).foldl
    (fun acc _ =>
      let r1 := pcgNext acc.2.2
      let element1 := startElement + r1.1 % count
      let original1 := getWindowElement w element1
      let r2 := pcgNext r1.2
      let elementRX := startElement + r2.1 % count
      let originalRX := getWindowElement w elementRX
      (memAdd acc.1 original1.buffer original1.buffer.length,
       memAdd acc.2.1 originalRX.buffer originalRX.buffer.length,
       r2.2))
    (recovery, product, pcgSeed row count)
  (res.1, res.2.1)

/-- The shared Siamese-row tail of `Encoder::Encode` (steps after the mode
decision): compact the window if needed, advance the row, build the dense
and light contributions, combine with the row coefficient and append the
metadata footer. -/
def Encoder.encodeSiamese (e : Encoder) (allocOk : Bool) (unacknowledgedCount : Nat) :
    SiameseResult × Option (List Nat) × Encoder :=
  let e1 :=
    if kEncoderRemoveThreshold ≤ e.window.firstUnremovedElement then
      { e with window := removeElements e.window allocOk }
    else e
  let row := e1.nextRow
  let e2 := { e1 with nextRow := if kRowPeriod ≤ e1.nextRow + 1 then 0 else e1.nextRow + 1 }
  let recoveryBytes := e2.window.longestPacket
  let alignedBytes := nextAlignedOffset recoveryBytes
  if !allocOk then
    (.disabled, none, { e2 with window := { e2.window with emergencyDisabled := true } })
  else
    let res := addDenseColumns e2.window allocOk row
      (List.replicate alignedBytes 0) (List.replicate alignedBytes 0) recoveryBytes
    let w := res.1
    let res2 := addLightColumns w row res.2.1 res.2.2
    let recovery := memMulAdd res2.1 (getRowValue row) res2.2 recoveryBytes
    let footer := serializeFooterRecoveryMetadata
      { sumCount := w.sumEndElement - w.sumStartElement + w.sumErasedCount
        ldpcCount := unacknowledgedCount
        columnStart := w.sumColumnStart
        row := row }
    let out := recovery.take recoveryBytes ++ footer
    (.success, some out,
     { e2 with window := w
               recoveryPacket := memWrite (recovery ++ res2.2) recoveryBytes footer
               stats := { e2.stats with
                 recoveryCount := e2.stats.recoveryCount + 1
                 recoveryBytes := e2.stats.recoveryBytes + out.length } })

/-- `Encoder::Encode`. -/
def Encoder.encode (e : Encoder) (allocOk : Bool) :
    SiameseResult × Option (List Nat) × Encoder :=
  if e.window.emergencyDisabled then (.disabled, none, e)
  else if e.window.count = 0 then (.needMoreData, none, e)
  else
    let unacknowledgedCount := getUnacknowledgedCount e.window
    if unacknowledgedCount = 1 then e.generateSinglePacket allocOk
    else
      let newSumCountUB := e.window.count - e.window.sumStartElement + e.window.sumErasedCount
      if e.window.sumEndElement ≤ e.window.sumStartElement ∨
          siameseMaxPackets ≤ newSumCountUB then
        if unacknowledgedCount ≤ kCauchyThreshold then e.generateCauchyPacket allocOk
        else
          ({ e with window := resetSums e.window e.window.firstUnremovedElement
           } : Encoder).encodeSiamese allocOk unacknowledgedCount
      else
        if unacknowledgedCount ≤ kSumResetThreshold ∨ newSumCountUB ≤ kCauchyThreshold then
          ({ e with window := { e.window with sumEndElement := e.window.sumStartElement }
           } : Encoder).generateCauchyPacket allocOk
        else e.encodeSiamese allocOk unacknowledgedCount

/-- `Encoder::GetStatistics`: refresh the memory counter and copy out up to
`statsCount` counters; always succeeds. -/
def Encoder.getStatistics (e : Encoder) (statsCount : Nat) :
    SiameseResult × List Nat × Encoder :=
  let stats2 := { e.stats with memoryUsed := e.memoryAllocatedBytes }
  (.success, (statsArray stats2).take (min statsCount 9), { e with stats := stats2 })

/-! ### The public operation alphabet -/

/-- One public encoder API call with its inputs (`allocOk` supplies the
allocation outcome for calls that allocate). -/
inductive EncOp where
  | add (allocOk : Bool) (payload : List Nat)
  | get (packetNum : Nat)
  | removeBefore (firstKeptColumn : Nat)
  | acknowledge (data : List Nat)
  | retransmit (retransmitMsec nowMsec : Nat)
  | encode (allocOk : Bool)
  | getStatistics (statsCount : Nat)
deriving DecidableEq

/-- Apply one public call to the encoder, keeping the resulting state. -/
def encStep (op : EncOp) (e : Encoder) : Encoder :=
  match op with
  | .add allocOk payload => (e.add allocOk payload).2.2
  | .get packetNum => (e.get packetNum).2.2
  | .removeBefore c => e.removeBefore c
  | .acknowledge data => (e.acknowledge data).2
  | .retransmit m t => (e.retransmit m t).2.2
  | .encode allocOk => (e.encode allocOk).2.2
  | .getStatistics n => (e.getStatistics n).2.2

/-- Run a sequence of public calls. -/
def encRun (ops : List EncOp) (e : Encoder) : Encoder :=
  ops.foldl (fun acc op => encStep op acc) e

/-! ### Spec-side definitions used by claim statements -/

/-- Byte-wise XOR of two buffers, zero-padding the shorter one. -/
def xorPad : List Nat → List Nat → List Nat
  | [], ys => ys
  | xs, [] => xs
  | x :: xs, y :: ys => (x ^^^ y) :: xorPad xs ys

/-- Byte-wise XOR of a list of buffers, zero-padding shorter buffers. -/
def xorSum (ls : List (List Nat)) : List Nat := ls.foldl xorPad []

/-- The stored buffers of the unremoved originals, in element order
(elements `firstUnremovedElement` through `count - 1`). -/
def unremovedBuffers (w : EncoderPacketWindow) : List (List Nat) :=
  (List.range (getUnacknowledgedCount w)).map fun i =>
    (getWindowElement w (w.firstUnremovedElement + i)).buffer

/-- Field-wise agreement of two windows on every field that the lane-sum
bookkeeping of `GetSum` leaves untouched (everything except the lanes,
`SumEndElement` and `SumColumnStart`). -/
def windowCoreEq (w w2 : EncoderPacketWindow) : Prop :=
  w2.count = w.count ∧ w2.firstUnremovedElement = w.firstUnremovedElement ∧
  w2.columnStart = w.columnStart ∧ w2.originals = w.originals ∧
  w2.longestPacket = w.longestPacket ∧ w2.sumStartElement = w.sumStartElement ∧
  w2.sumErasedCount = w.sumErasedCount ∧ w2.emergencyDisabled = w.emergencyDisabled

/-- Six original packets added to a fresh encoder. -/
def sixPacketEncoder : Encoder :=
  ((((((initEncoder.add true [1]).2.2.add true [2]).2.2.add true [3]).2.2.add true
    [4]).2.2.add true [5]).2.2.add true [6]).2.2

/-- A reachable state that drives `Encode` into its stop-using-sums branch:
after six originals, one Siamese recovery emission activates the lane sums
(`SumEndElement = 6 > 0 = SumStartElement`), and `remove_before` of
column 4 then leaves two packets in flight. -/
def parityAfterSumsEncoder : Encoder :=
  ((sixPacketEncoder.encode true).2.2).removeBefore 4

/-- The window-count invariant of the claim set, amended with the
window-cleared case: either `count ≥ first_unremoved_element` or the
window has been cleared (`count = 0`, which leaves
`first_unremoved_element` behind). -/
def windowCountInv (w : EncoderPacketWindow) : Prop :=
  w.firstUnremovedElement ≤ w.count ∨ w.count = 0

/-! ### Theorems -/

/-- C9: modular column arithmetic round-trips for in-window elements. -/
theorem c9_column_roundtrip (w : EncoderPacketWindow) (a : Nat)
    (h1 : a < w.count) (h2 : w.count ≤ siameseMaxPackets) :
    columnToElement w (elementToColumn w a) = a := by
  unfold columnToElement elementToColumn subtractColumns addColumns
  unfold siameseMaxPackets at h2
  unfold kColumnPeriod
  omega

/-- C9 witness. -/
theorem c9_column_roundtrip_witness :
    3 < (7 : Nat) ∧ (7 : Nat) ≤ siameseMaxPackets ∧
      columnToElement { initEncoderPacketWindow with count := 7, columnStart := 4194300 }
        (elementToColumn { initEncoderPacketWindow with count := 7, columnStart := 4194300 } 3)
        = 3 :=
  ⟨by decide, by decide,
    c9_column_roundtrip { initEncoderPacketWindow with count := 7, columnStart := 4194300 } 3
      (by decide) (by decide)⟩

/-- C8: `add` on a full window fails with `MaxPacketsReached` and changes
nothing. -/
theorem c8_add_max_packets (e : Encoder) (allocOk : Bool) (payload : List Nat)
    (hdis : e.window.emergencyDisabled = false)
    (hcount : siameseMaxPackets ≤ e.window.count) :
    e.add allocOk payload = (.maxPacketsReached, none, e) := by
  unfold Encoder.add windowAdd
  simp [hdis, hcount]

/-- C8 witness. -/
theorem c8_add_max_packets_witness :
    ({ initEncoder with window := { initEncoderPacketWindow with count := 16000 } } :
        Encoder).add true [1] =
      (.maxPacketsReached, none,
        { initEncoder with window := { initEncoderPacketWindow with count := 16000 } }) :=
  c8_add_max_packets _ true [1] (by decide) (by decide)

/-- C10: `get` for a column outside the window or an empty stored buffer
returns `NeedMoreData` with a null output and an unchanged encoder. -/
theorem c10_get_need_more_data (e : Encoder) (packetNum : Nat)
    (hdis : e.window.emergencyDisabled = false)
    (h : e.window.count ≤ columnToElement e.window packetNum ∨
         (getWindowElement e.window (columnToElement e.window packetNum)).buffer.length = 0) :
    e.get packetNum = (.needMoreData, none, e) := by
  unfold Encoder.get invalidElement
  rcases h with h | h
  · simp [hdis, h]
  · by_cases hv : e.window.count ≤ columnToElement e.window packetNum
    · simp [hdis, hv]
    · simp [hdis, hv, h]

/-- C10 witness. -/
theorem c10_get_need_more_data_witness :
    initEncoder.get 5 = (.needMoreData, none, initEncoder) :=
  c10_get_need_more_data initEncoder 5 (by decide) (Or.inl (by decide))

/-- C2 (amended, provable part): when the `next_column_expected` header
varint fails to parse, `acknowledge` returns `InvalidInput` and leaves the
whole encoder unchanged. -/
theorem c2_header_invalid_no_change (e : Encoder) (data : List Nat)
    (hdis : e.window.emergencyDisabled = false)
    (hhdr : deserializeHeaderPacketNum data = none) :
    e.acknowledge data = (.invalidInput, e) := by
  unfold Encoder.acknowledge onAcknowledgementData
  simp [hdis, hhdr]

/-- C2 witness (for the amended theorem). -/
theorem c2_header_invalid_no_change_witness :
    initEncoder.acknowledge [] = (.invalidInput, initEncoder) :=
  c2_header_invalid_no_change initEncoder [] (by decide) (by decide)

/-- C2 counterexample: the ack bytes `[0x00, 0x80]` parse a valid header
(`next_column_expected = 0`) but the first loss-range entry overruns the
payload, so `acknowledge` returns `InvalidInput` -- yet the loss-iterator
offset has been advanced from 0 to 3, refuting "leaves all encoder state
unchanged". -/
theorem c2_counterexample :
    (initEncoder.acknowledge [0, 128]).1 = SiameseResult.invalidInput ∧
    initEncoder.ackState.offset = 0 ∧
    ((initEncoder.acknowledge [0, 128]).2).ackState.offset = 3 ∧
    ((initEncoder.acknowledge [0, 128]).2).ackState.offset ≠ initEncoder.ackState.offset := by
  refine ⟨by decide, by decide, by decide, by decide⟩

/-- C5: with exactly one unremoved packet, `encode` succeeds and emits that
original's stored buffer (length header plus payload) followed by a
`{sum_count = 1, ldpc_count = 1, column_start = original.column, row = 0}`
footer, leaving the window contents unchanged. -/
theorem c5_single_packet (e : Encoder)
    (hdis : e.window.emergencyDisabled = false)
    (hone : e.window.count = e.window.firstUnremovedElement + 1) :
    (e.encode true).1 = .success ∧
    (e.encode true).2.1 =
      some ((getWindowElement e.window e.window.firstUnremovedElement).buffer ++
        serializeFooterRecoveryMetadata
          { sumCount := 1, ldpcCount := 1
            columnStart := (getWindowElement e.window e.window.firstUnremovedElement).column
            row := 0 }) ∧
    ((e.encode true).2.2).window = e.window := by
  have hcount : e.window.count ≠ 0 := by omega
  have hunack : getUnacknowledgedCount e.window = 1 := by
    unfold getUnacknowledgedCount; omega
  unfold Encoder.encode
  simp [hdis, hcount, hunack, Encoder.generateSinglePacket]

/-- C5 witness. -/
theorem c5_single_packet_witness :
    ((initEncoder.add true [7]).2.2.encode true).1 = SiameseResult.success ∧
    ((initEncoder.add true [7]).2.2.encode true).2.1 = some [1, 7, 1, 1, 0, 0, 0, 0] := by
  have h := c5_single_packet (initEncoder.add true [7]).2.2 (by decide) (by decide)
  exact ⟨h.1, by rw [h.2.1]; decide⟩

/-- C6: `remove_before` ignores columns before the window, clears the
window for columns beyond it, and otherwise advances
`first_unremoved_element` monotonically. -/
theorem c6_remove_before (w : EncoderPacketWindow) (firstKeptColumn : Nat)
    (hdis : w.emergencyDisabled = false) (hcount : w.count ≤ siameseMaxPackets) :
    (isColumnDeltaNegative (columnToElement w firstKeptColumn) = true →
        removeBefore w firstKeptColumn = w) ∧
    (isColumnDeltaNegative (columnToElement w firstKeptColumn) = false →
        w.count ≤ columnToElement w firstKeptColumn →
        removeBefore w firstKeptColumn = { w with count := 0 }) ∧
    (columnToElement w firstKeptColumn < w.count →
        removeBefore w firstKeptColumn =
          { w with firstUnremovedElement :=
              (max w.firstUnremovedElement (columnToElement w firstKeptColumn)) }) := by
  unfold removeBefore invalidElement
  simp only [hdis, Bool.false_eq_true, if_false]
  refine ⟨?_, ?_, ?_⟩
  · intro hneg
    have hge : kColumnPeriod / 2 ≤ columnToElement w firstKeptColumn := by
      simpa [isColumnDeltaNegative] using hneg
    have hinv : w.count ≤ columnToElement w firstKeptColumn := by
      unfold siameseMaxPackets at hcount
      unfold kColumnPeriod at hge
      omega
    simp [hinv, hneg]
  · intro hneg hge
    simp [hge, hneg]
  · intro hlt
    have hinv : ¬ (w.count ≤ columnToElement w firstKeptColumn) := by omega
    simp only [decide_eq_true_eq, hinv, if_false]
    split
    · rename_i hfu
      have : max w.firstUnremovedElement (columnToElement w firstKeptColumn) =
          columnToElement w firstKeptColumn := by omega
      rw [this]
    · rename_i hfu
      have : max w.firstUnremovedElement (columnToElement w firstKeptColumn) =
          w.firstUnremovedElement := by omega
      rw [this, ← hdis]

/-- C6 witness. -/
theorem c6_remove_before_witness :
    isColumnDeltaNegative
        (columnToElement { initEncoderPacketWindow with count := 3 } 4194300) = true ∧
    removeBefore { initEncoderPacketWindow with count := 3 } 4194300 =
      { initEncoderPacketWindow with count := 3 } :=
  ⟨by decide,
   (c6_remove_before { initEncoderPacketWindow with count := 3 } 4194300
      (by decide) (by decide)).1 (by decide)⟩

/-- Once the emergency flag is set, no public operation touches the window
again (statistics only refreshes its counters). -/
theorem encStep_disabled_window (op : EncOp) (e : Encoder)
    (h : e.window.emergencyDisabled = true) : (encStep op e).window = e.window := by
  cases op <;>
    simp [encStep, Encoder.add, windowAdd, Encoder.get, Encoder.removeBefore,
      removeBefore, Encoder.acknowledge, Encoder.retransmit, Encoder.encode,
      Encoder.getStatistics, h]

/-- The emergency flag survives any sequence of public operations. -/
theorem encRun_disabled_window (ops : List EncOp) (e : Encoder)
    (h : e.window.emergencyDisabled = true) : (encRun ops e).window = e.window := by
  induction ops generalizing e with
  | nil => rfl
  | cons op ops ih =>
    unfold encRun
    simp only [List.foldl_cons]
    have hstep := encStep_disabled_window op e h
    have : (encStep op e).window.emergencyDisabled = true := by rw [hstep]; exact h
    calc (encRun ops (encStep op e)).window
        = (encStep op e).window := ih (encStep op e) this
      _ = e.window := hstep

/-- C1 (amended): once `emergency_disabled` is set, it is never cleared by
any sequence of public calls, and `add`, `get`, `acknowledge`,
`retransmit` and `encode` all return `Disabled` -- but `statistics`
returns `Success` (it never checks the flag). -/
theorem c1_disabled_forever (e : Encoder) (ops : List EncOp) (allocOk : Bool)
    (payload : List Nat) (packetNum : Nat) (data : List Nat)
    (retransmitMsec nowMsec statsCount : Nat)
    (h : e.window.emergencyDisabled = true) :
    (encRun ops e).window.emergencyDisabled = true ∧
    ((encRun ops e).add allocOk payload).1 = .disabled ∧
    ((encRun ops e).get packetNum).1 = .disabled ∧
    ((encRun ops e).acknowledge data).1 = .disabled ∧
    ((encRun ops e).retransmit retransmitMsec nowMsec).1 = .disabled ∧
    ((encRun ops e).encode allocOk).1 = .disabled ∧
    ((encRun ops e).getStatistics statsCount).1 = .success := by
  have hw := encRun_disabled_window ops e h
  have hd : (encRun ops e).window.emergencyDisabled = true := by rw [hw]; exact h
  refine ⟨hd, ?_, ?_, ?_, ?_, ?_, ?_⟩ <;>
    simp [Encoder.add, windowAdd, Encoder.get, Encoder.acknowledge,
      Encoder.retransmit, Encoder.encode, Encoder.getStatistics, hd]

/-- C1 witness. -/
theorem c1_disabled_forever_witness :
    (encRun [.add true [1], .encode true, .getStatistics 9]
        { initEncoder with
          window := { initEncoderPacketWindow with emergencyDisabled := true } }
      ).window.emergencyDisabled = true ∧
    ((encRun [.add true [1], .encode true, .getStatistics 9]
        { initEncoder with
          window := { initEncoderPacketWindow with emergencyDisabled := true } }
      ).getStatistics 9).1 = SiameseResult.success := by
  have h := c1_disabled_forever
    { initEncoder with
      window := { initEncoderPacketWindow with emergencyDisabled := true } }
    [.add true [1], .encode true, .getStatistics 9] true [1] 0 [] 0 0 9 (by decide)
  exact ⟨h.1, h.2.2.2.2.2.2⟩

/-- C1 counterexample: on a disabled encoder, `statistics` returns
`Success`, not `Disabled` as the claim states. -/
theorem c1_counterexample :
    ({ initEncoder with
        window := { initEncoderPacketWindow with emergencyDisabled := true } } :
      Encoder).window.emergencyDisabled = true ∧
    (({ initEncoder with
        window := { initEncoderPacketWindow with emergencyDisabled := true } } :
      Encoder).getStatistics 9).1 = SiameseResult.success ∧
    SiameseResult.success ≠ SiameseResult.disabled := by
  refine ⟨by decide, by decide, by decide⟩

/-! ### Count / first-unremoved-element preservation lemmas (for C4) -/

theorem foldl_preserve {α β : Type _} (P : α → Prop) (f : α → β → α)
    (hf : ∀ a b, P a → P (f a b)) (l : List β) (a : α) (ha : P a) : P (l.foldl f a) := by
  induction l generalizing a with
  | nil => exact ha
  | cons x xs ih => exact ih (f a x) (hf a x ha)

theorem getSum_count_fue (w : EncoderPacketWindow) (ok : Bool) (l s eEnd : Nat) :
    ((getSum w ok l s eEnd).1).count = w.count ∧
    ((getSum w ok l s eEnd).1).firstUnremovedElement = w.firstUnremovedElement := by
  unfold getSum
  simp only []
  repeat' split
  all_goals exact ⟨rfl, rfl⟩

theorem rollLaneSums_count_fue (w : EncoderPacketWindow) (ok : Bool) (removed : Nat) :
    (rollLaneSums w ok removed).count = w.count ∧
    (rollLaneSums w ok removed).firstUnremovedElement = w.firstUnremovedElement := by
  unfold rollLaneSums
  refine foldl_preserve
    (fun (w2 : EncoderPacketWindow) =>
      w2.count = w.count ∧ w2.firstUnremovedElement = w.firstUnremovedElement)
    _ ?_ _ _ ⟨rfl, rfl⟩
  intro wa laneIndex hw
  refine foldl_preserve
    (fun (w2 : EncoderPacketWindow) =>
      w2.count = w.count ∧ w2.firstUnremovedElement = w.firstUnremovedElement)
    _ ?_ _ _ hw
  intro wb sumIndex hwb
  have hg := getSum_count_fue wb ok laneIndex sumIndex removed
  exact ⟨hg.1.trans hwb.1, hg.2.trans hwb.2⟩

theorem removeElementsFinish_count_fue (w : EncoderPacketWindow) :
    (removeElementsFinish w).count = w.count ∧
    (removeElementsFinish w).firstUnremovedElement = w.firstUnremovedElement := by
  unfold removeElementsFinish recomputeLongest resetSums
  simp only []
  split
  all_goals exact ⟨rfl, rfl⟩

theorem removeElements_count_fue (w : EncoderPacketWindow) (ok : Bool) :
    (removeElements w ok).count =
      w.count - w.firstUnremovedElement / kSubwindowSize * kSubwindowSize ∧
    (removeElements w ok).firstUnremovedElement =
      w.firstUnremovedElement - w.firstUnremovedElement / kSubwindowSize * kSubwindowSize := by
  unfold removeElements
  simp only []
  have hroll := rollLaneSums_count_fue w ok
    (w.firstUnremovedElement / kSubwindowSize * kSubwindowSize)
  by_cases hs : w.sumStartElement < w.sumEndElement
  · simp only [hs, if_true]
    split
    all_goals
      obtain ⟨h1, h2⟩ := removeElementsFinish_count_fue
        { (rollLaneSums w ok (w.firstUnremovedElement / kSubwindowSize * kSubwindowSize))
            with
          sumErasedCount := _, sumEndElement := _, sumStartElement := _,
          originals := _, count := _, columnStart := _, firstUnremovedElement := _ }
      exact ⟨by rw [h1]; simp [hroll.1], by rw [h2]; simp [hroll.2]⟩
  · simp only [hs, if_false]
    obtain ⟨h1, h2⟩ := removeElementsFinish_count_fue
      { w with originals := _, count := _, columnStart := _, firstUnremovedElement := _ }
    exact ⟨by rw [h1], by rw [h2]⟩

theorem retransmitLoop_window (w : EncoderPacketWindow) (a : EncoderAcknowledgementState)
    (m t : Nat) :
    ((retransmitLoop w a m t).2.1).count = w.count ∧
    ((retransmitLoop w a m t).2.1).firstUnremovedElement = w.firstUnremovedElement := by
  induction a, m, t using retransmitLoop.induct w with
  | case1 a m t a2 h =>
    unfold retransmitLoop
    split
    · exact ⟨rfl, rfl⟩
    · rename_i c2 a3 h2
      rw [h] at h2
      simp at h2
  | case2 a m t column a2 h helt =>
    unfold retransmitLoop
    split
    · exact ⟨rfl, rfl⟩
    · rename_i c2 a3 h2
      rw [h] at h2
      simp only [Prod.mk.injEq, Option.some.injEq] at h2
      obtain ⟨rfl, rfl⟩ := h2
      simp [helt]
  | case3 a m t column a2 h helt hbuf =>
    unfold retransmitLoop
    split
    · exact ⟨rfl, rfl⟩
    · rename_i c2 a3 h2
      rw [h] at h2
      simp only [Prod.mk.injEq, Option.some.injEq] at h2
      obtain ⟨rfl, rfl⟩ := h2
      simp [helt, hbuf]
  | case4 a m t column a2 h helt hbuf htime ih =>
    unfold retransmitLoop
    split
    · exact ⟨rfl, rfl⟩
    · rename_i c2 a3 h2
      rw [h] at h2
      simp only [Prod.mk.injEq, Option.some.injEq] at h2
      obtain ⟨rfl, rfl⟩ := h2
      simpa [helt, hbuf, htime] using ih
  | case5 a m t column a2 h helt hbuf htime =>
    unfold retransmitLoop
    split
    · exact ⟨rfl, rfl⟩
    · rename_i c2 a3 h2
      rw [h] at h2
      simp only [Prod.mk.injEq, Option.some.injEq] at h2
      obtain ⟨rfl, rfl⟩ := h2
      simp [helt, hbuf, htime]

theorem addDenseColumns_count_fue (w : EncoderPacketWindow) (ok : Bool) (row : Nat)
    (recovery product : List Nat) (recoveryBytes : Nat) :
    ((addDenseColumns w ok row recovery product recoveryBytes).1).count = w.count ∧
    ((addDenseColumns w ok row recovery product recoveryBytes).1).firstUnremovedElement
      = w.firstUnremovedElement := by
  unfold addDenseColumns
  simp only []
  refine And.imp (fun h => h) (fun h => h) ?_
  refine foldl_preserve
    (fun (acc : EncoderPacketWindow × List Nat × List Nat) =>
      acc.1.count = w.count ∧ acc.1.firstUnremovedElement = w.firstUnremovedElement)
    _ ?_ _ _ ⟨rfl, rfl⟩
  intro acc laneIndex hacc
  refine foldl_preserve
    (fun (acc2 : EncoderPacketWindow × List Nat × List Nat) =>
      acc2.1.count = w.count ∧ acc2.1.firstUnremovedElement = w.firstUnremovedElement)
    _ ?_ _ _ ?_
  · intro acc2 sumIndex hacc2
    split
    · have hg := getSum_count_fue acc2.1 ok laneIndex sumIndex acc2.1.count
      exact ⟨hg.1.trans hacc2.1, hg.2.trans hacc2.2⟩
    · exact hacc2
  · refine foldl_preserve
      (fun (acc2 : EncoderPacketWindow × List Nat × List Nat) =>
        acc2.1.count = w.count ∧ acc2.1.firstUnremovedElement = w.firstUnremovedElement)
      _ ?_ _ _ hacc
    intro acc2 sumIndex hacc2
    split
    · have hg := getSum_count_fue acc2.1 ok laneIndex sumIndex acc2.1.count
      exact ⟨hg.1.trans hacc2.1, hg.2.trans hacc2.2⟩
    · exact hacc2

theorem windowAdd_inv (w : EncoderPacketWindow) (stats : EncoderStats) (ok : Bool)
    (payload : List Nat) (h : windowCountInv w) :
    windowCountInv ((windowAdd w stats ok payload).2.2.1) := by
  unfold windowAdd startNewWindow windowCountInv
  unfold windowCountInv at h
  simp only []
  repeat' split
  all_goals simp_all
  all_goals omega

theorem removeBefore_inv (w : EncoderPacketWindow) (c : Nat) (h : windowCountInv w) :
    windowCountInv (removeBefore w c) := by
  unfold windowCountInv at h ⊢
  unfold removeBefore invalidElement
  split
  · exact h
  · simp only []
    split
    · split
      · exact h
      · right
        rfl
    · rename_i hvalid
      simp only [decide_eq_true_eq] at hvalid
      split
      · left
        simp only []
        omega
      · exact h

theorem onAcknowledgementData_inv (a : EncoderAcknowledgementState)
    (w : EncoderPacketWindow) (data : List Nat) (h : windowCountInv w) :
    windowCountInv ((onAcknowledgementData a w data).2.2) := by
  unfold onAcknowledgementData
  split
  · exact h
  · simp only []
    repeat' split
    all_goals first
      | exact h
      | exact removeBefore_inv w _ h

theorem generateSinglePacket_window_count_fue (e : Encoder) (ok : Bool) :
    (((e.generateSinglePacket ok).2.2).window).count = e.window.count ∧
    (((e.generateSinglePacket ok).2.2).window).firstUnremovedElement =
      e.window.firstUnremovedElement := by
  unfold Encoder.generateSinglePacket
  simp only []
  split
  all_goals exact ⟨rfl, rfl⟩

theorem generateCauchyPacket_window_count_fue (e : Encoder) (ok : Bool) :
    (((e.generateCauchyPacket ok).2.2).window).count = e.window.count ∧
    (((e.generateCauchyPacket ok).2.2).window).firstUnremovedElement =
      e.window.firstUnremovedElement := by
  unfold Encoder.generateCauchyPacket
  simp only []
  repeat' split
  all_goals exact ⟨rfl, rfl⟩

theorem addDenseColumns_count (w : EncoderPacketWindow) (ok : Bool) (row : Nat)
    (recovery product : List Nat) (recoveryBytes : Nat) :
    ((addDenseColumns w ok row recovery product recoveryBytes).1).count = w.count :=
  (addDenseColumns_count_fue w ok row recovery product recoveryBytes).1

theorem addDenseColumns_fue (w : EncoderPacketWindow) (ok : Bool) (row : Nat)
    (recovery product : List Nat) (recoveryBytes : Nat) :
    ((addDenseColumns w ok row recovery product recoveryBytes).1).firstUnremovedElement
      = w.firstUnremovedElement :=
  (addDenseColumns_count_fue w ok row recovery product recoveryBytes).2

theorem encodeSiamese_inv (e : Encoder) (ok : Bool) (unack : Nat)
    (h : e.window.firstUnremovedElement ≤ e.window.count) :
    windowCountInv (((e.encodeSiamese ok unack)).2.2.window) := by
  have hremove : windowCountInv (removeElements e.window ok) := by
    obtain ⟨hc, hf⟩ := removeElements_count_fue e.window ok
    unfold windowCountInv
    left
    rw [hc, hf]
    have := Nat.div_mul_le_self e.window.firstUnremovedElement kSubwindowSize
    omega
  unfold Encoder.encodeSiamese
  simp only []
  by_cases hth : kEncoderRemoveThreshold ≤ e.window.firstUnremovedElement
  · simp only [hth, if_true]
    split
    · unfold windowCountInv at hremove ⊢
      exact hremove
    · unfold windowCountInv at hremove ⊢
      simp only [addDenseColumns_count, addDenseColumns_fue]
      exact hremove
  · simp only [hth, if_false]
    split
    · left
      exact h
    · unfold windowCountInv
      simp only [addDenseColumns_count, addDenseColumns_fue]
      left
      exact h

theorem get_state (e : Encoder) (packetNum : Nat) : (e.get packetNum).2.2 = e := by
  unfold Encoder.get
  simp only []
  repeat' split
  all_goals rfl

theorem generateSinglePacket_window_count (e : Encoder) (ok : Bool) :
    (((e.generateSinglePacket ok).2.2).window).count = e.window.count :=
  (generateSinglePacket_window_count_fue e ok).1

theorem generateSinglePacket_window_fue (e : Encoder) (ok : Bool) :
    (((e.generateSinglePacket ok).2.2).window).firstUnremovedElement =
      e.window.firstUnremovedElement :=
  (generateSinglePacket_window_count_fue e ok).2

theorem generateCauchyPacket_window_count (e : Encoder) (ok : Bool) :
    (((e.generateCauchyPacket ok).2.2).window).count = e.window.count :=
  (generateCauchyPacket_window_count_fue e ok).1

theorem generateCauchyPacket_window_fue (e : Encoder) (ok : Bool) :
    (((e.generateCauchyPacket ok).2.2).window).firstUnremovedElement =
      e.window.firstUnremovedElement :=
  (generateCauchyPacket_window_count_fue e ok).2

theorem retransmit_window_count_fue (e : Encoder) (m t : Nat) :
    (((e.retransmit m t).2.2).window).count = e.window.count ∧
    (((e.retransmit m t).2.2).window).firstUnremovedElement =
      e.window.firstUnremovedElement := by
  unfold Encoder.retransmit
  split
  · exact ⟨rfl, rfl⟩
  · split
    · exact ⟨rfl, rfl⟩
    · split
      · rename_i out w2 a2 heq
        have hlw := retransmitLoop_window e.window e.ackState m t
        rw [heq] at hlw
        exact hlw
      · rename_i w2 a2 heq
        have hlw := retransmitLoop_window e.window e.ackState m t
        rw [heq] at hlw
        exact hlw

theorem encode_inv (e : Encoder) (ok : Bool) (h : windowCountInv e.window) :
    windowCountInv ((e.encode ok).2.2).window := by
  unfold Encoder.encode
  simp only []
  split
  · exact h
  · split
    · exact h
    · rename_i hne
      have hfue : e.window.firstUnremovedElement ≤ e.window.count := by
        unfold windowCountInv at h
        rcases h with h | h
        · exact h
        · exact absurd h hne
      split
      · unfold windowCountInv
        simp only [generateSinglePacket_window_count, generateSinglePacket_window_fue]
        left
        exact hfue
      · split
        · split
          · unfold windowCountInv
            simp only [generateCauchyPacket_window_count, generateCauchyPacket_window_fue]
            left
            exact hfue
          · exact encodeSiamese_inv _ ok _ hfue
        · split
          · unfold windowCountInv
            simp only [generateCauchyPacket_window_count, generateCauchyPacket_window_fue]
            left
            exact hfue
          · exact encodeSiamese_inv _ ok _ hfue

/-- C4 counterexample: after two `add`s and `remove_before 1` the window has
`count = 2, first_unremoved_element = 1`; a further `remove_before 5` names
a column beyond the window, so the code clears `count` to 0 but leaves
`first_unremoved_element = 1`, refuting `count ≥ first_unremoved_element`
after a `remove_before` call. -/
theorem c4_counterexample :
    (((initEncoder.add true [1]).2.2.add true [2]).2.2.removeBefore 1).window.count = 2 ∧
    ((((initEncoder.add true [1]).2.2.add true [2]).2.2.removeBefore 1).removeBefore 5
      ).window.count = 0 ∧
    ((((initEncoder.add true [1]).2.2.add true [2]).2.2.removeBefore 1).removeBefore 5
      ).window.firstUnremovedElement = 1 ∧
    ¬ (((((initEncoder.add true [1]).2.2.add true [2]).2.2.removeBefore 1).removeBefore 5
      ).window.firstUnremovedElement ≤
      ((((initEncoder.add true [1]).2.2.add true [2]).2.2.removeBefore 1).removeBefore 5
      ).window.count) := by
  refine ⟨by decide, by decide, by decide, by decide⟩

/-- C4 (amended): every public encoder operation and `remove_before`
preserve `count ≥ first_unremoved_element ∨ count = 0` -- the disjunct
`count = 0` is forced by the window-clearing branch of `remove_before`,
which zeroes `count` without resetting `first_unremoved_element`. -/
theorem c4_window_invariant (op : EncOp) (e : Encoder) (h : windowCountInv e.window) :
    windowCountInv (encStep op e).window := by
  cases op with
  | add ok payload => exact windowAdd_inv e.window e.stats ok payload h
  | get packetNum =>
    show windowCountInv ((e.get packetNum).2.2).window
    rw [get_state]
    exact h
  | removeBefore c => exact removeBefore_inv e.window c h
  | acknowledge data =>
    show windowCountInv ((e.acknowledge data).2).window
    unfold Encoder.acknowledge
    split
    · exact h
    · simp only []
      split
      · exact onAcknowledgementData_inv e.ackState e.window data h
      · exact onAcknowledgementData_inv e.ackState e.window data h
  | retransmit m t =>
    show windowCountInv ((e.retransmit m t).2.2).window
    obtain ⟨hc, hf⟩ := retransmit_window_count_fue e m t
    unfold windowCountInv at h ⊢
    rw [hc, hf]
    exact h
  | encode ok => exact encode_inv e ok h
  | getStatistics n => exact h

/-- C4 witness. -/
theorem c4_window_invariant_witness :
    windowCountInv ((initEncoder.add true [1]).2.2).window ∧
    windowCountInv (encStep (.removeBefore 5) (initEncoder.add true [1]).2.2).window :=
  ⟨by unfold windowCountInv; decide,
   c4_window_invariant (.removeBefore 5) (initEncoder.add true [1]).2.2
     (by unfold windowCountInv; decide)⟩

/-! ### Ack idempotence (C3) -/

theorem removeBefore_disabled (w : EncoderPacketWindow) (c : Nat) :
    (removeBefore w c).emergencyDisabled = w.emergencyDisabled := by
  unfold removeBefore
  split
  · rfl
  · simp only []
    repeat' split
    all_goals rfl

theorem removeBefore_idem (w : EncoderPacketWindow) (c : Nat) :
    removeBefore (removeBefore w c) c = removeBefore w c := by
  by_cases hd : w.emergencyDisabled = true
  · simp [removeBefore, hd]
  · by_cases hv : w.count ≤ subtractColumns c w.columnStart
    · by_cases hneg : isColumnDeltaNegative (subtractColumns c w.columnStart) = true
      · have hinner : removeBefore w c = w := by
          simp [removeBefore, invalidElement, columnToElement, hd, hv, hneg]
        rw [hinner, hinner]
      · have hinner : removeBefore w c = { w with count := 0 } := by
          simp [removeBefore, invalidElement, columnToElement, hd, hv, hneg]
        rw [hinner]
        simp [removeBefore, invalidElement, columnToElement, hd, hneg]
    · by_cases hfu : w.firstUnremovedElement < subtractColumns c w.columnStart
      · have hinner : removeBefore w c =
            { w with firstUnremovedElement := subtractColumns c w.columnStart } := by
          simp [removeBefore, invalidElement, columnToElement, hd, hv, hfu]
        rw [hinner]
        simp [removeBefore, invalidElement, columnToElement, hd, hv, hfu]
      · have hinner : removeBefore w c = w := by
          simp [removeBefore, invalidElement, columnToElement, hd, hv, hfu]
        rw [hinner, hinner]

theorem decodeNextRange_preserves (a : EncoderAcknowledgementState) :
    ((decodeNextRange a).2).dataBytes = a.dataBytes ∧
    ((decodeNextRange a).2).ackData = a.ackData ∧
    ((decodeNextRange a).2).nextColumnExpected = a.nextColumnExpected := by
  unfold decodeNextRange
  repeat' split
  all_goals exact ⟨rfl, rfl, rfl⟩

theorem onAcknowledgementData_window_disabled (a : EncoderAcknowledgementState)
    (w : EncoderPacketWindow) (data : List Nat) :
    ((onAcknowledgementData a w data).2.2).emergencyDisabled = w.emergencyDisabled := by
  unfold onAcknowledgementData
  split
  · rfl
  · simp only []
    repeat' split
    all_goals first
      | rfl
      | exact removeBefore_disabled w _

theorem onAcknowledgementData_idem (a : EncoderAcknowledgementState)
    (w : EncoderPacketWindow) (data : List Nat)
    (hsucc : (onAcknowledgementData a w data).1 = true) :
    (onAcknowledgementData (onAcknowledgementData a w data).2.1
        (onAcknowledgementData a w data).2.2 data).1 = true ∧
    (onAcknowledgementData (onAcknowledgementData a w data).2.1
        (onAcknowledgementData a w data).2.2 data).2.2 =
      (onAcknowledgementData a w data).2.2 := by
  rcases hh : deserializeHeaderPacketNum data with - | ⟨v, hb⟩
  · rw [onAcknowledgementData, hh] at hsucc
    exact absurd hsucc (by simp)
  · simp only [onAcknowledgementData, hh] at hsucc ⊢
    by_cases hdup : a.nextColumnExpected = v ∧ a.ackData.isSome = true ∧
        (data.drop hb).length = a.dataBytes ∧
        (a.ackData.getD []).take (data.drop hb).length = data.drop hb
    · rw [if_pos hdup]
      simp only []
      rw [if_pos hdup]
      exact ⟨rfl, rfl⟩
    · rw [if_neg hdup] at hsucc ⊢
      by_cases hn : (data.drop hb).length = 0
      · rw [if_pos hn] at hsucc ⊢
        simp only []
        split
        · exact ⟨rfl, rfl⟩
        · exact ⟨rfl, removeBefore_idem w v⟩
      · rw [if_neg hn] at hsucc ⊢
        simp only [] at hsucc ⊢
        split
        · exact ⟨rfl, rfl⟩
        · rename_i hdup2
          exfalso
          apply hdup2
          obtain ⟨hdb, hack, hnce⟩ := decodeNextRange_preserves
            { ackData := some (data.drop hb), dataBytes := (data.drop hb).length, offset := 0,
              lossColumn := v, lossCount := 0, nextColumnExpected := v }
          refine ⟨?_, ?_, ?_, ?_⟩
          · rw [hnce]
          · rw [hack]
            rfl
          · rw [hdb]
          · rw [hack]
            simp

/-- C3: feeding the same accepted ack bytes twice returns Success again and
leaves the window state (count, column_start, first_unremoved_element)
exactly as after the first call. -/
theorem c3_ack_idempotent (e : Encoder) (data : List Nat)
    (h : (e.acknowledge data).1 = .success) :
    ((e.acknowledge data).2.acknowledge data).1 = .success ∧
    (((e.acknowledge data).2.acknowledge data).2).window.count =
      ((e.acknowledge data).2).window.count ∧
    (((e.acknowledge data).2.acknowledge data).2).window.columnStart =
      ((e.acknowledge data).2).window.columnStart ∧
    (((e.acknowledge data).2.acknowledge data).2).window.firstUnremovedElement =
      ((e.acknowledge data).2).window.firstUnremovedElement := by
  by_cases hd : e.window.emergencyDisabled = true
  · rw [Encoder.acknowledge, if_pos hd] at h
    exact absurd h (by simp)
  · have hdf : e.window.emergencyDisabled = false := by
      cases hbb : e.window.emergencyDisabled
      · rfl
      · exact absurd hbb hd
    rw [Encoder.acknowledge, if_neg hd] at h
    by_cases hsucc : (onAcknowledgementData e.ackState e.window data).1 = true
    · obtain ⟨h2succ, h2w⟩ := onAcknowledgementData_idem e.ackState e.window data hsucc
      have hd2 : ((onAcknowledgementData e.ackState e.window data).2.2).emergencyDisabled
          = false := by
        rw [onAcknowledgementData_window_disabled]
        exact hdf
      simp only [Encoder.acknowledge, hdf, Bool.false_eq_true, if_false]
      simp only [hsucc, if_true]
      simp only [hd2, Bool.false_eq_true, if_false]
      simp only [h2succ, if_true]
      simp only [h2w]
      exact ⟨trivial, trivial, trivial, trivial⟩
    · rw [if_neg hsucc] at h
      exact absurd h (by simp)

/-- C3 witness. -/
theorem c3_ack_idempotent_witness :
    ((initEncoder.acknowledge [5]).2.acknowledge [5]).1 = SiameseResult.success ∧
    (((initEncoder.acknowledge [5]).2.acknowledge [5]).2).window.count =
      ((initEncoder.acknowledge [5]).2).window.count :=
  ⟨(c3_ack_idempotent initEncoder [5] (by decide)).1,
   (c3_ack_idempotent initEncoder [5] (by decide)).2.1⟩

/-! ### XOR-sum lemmas for the parity recovery packet (C7) -/

theorem xorPad_nil_right (xs : List Nat) : xorPad xs [] = xs := by
  cases xs <;> rfl

theorem xorPad_nil_left (ys : List Nat) : xorPad [] ys = ys := by
  cases ys <;> rfl

theorem xorPad_length (xs ys : List Nat) :
    (xorPad xs ys).length = max xs.length ys.length := by
  induction xs generalizing ys with
  | nil => simp [xorPad]
  | cons x xs ih =>
    cases ys with
    | nil => simp [xorPad]
    | cons y ys =>
      simp only [xorPad, List.length_cons, ih]
      omega

theorem memAdd_eq_xorPad : ∀ (xs ys : List Nat), ys.length ≤ xs.length →
    memAdd xs ys ys.length = xorPad xs ys
  | xs, [], _ => by simp [memAdd, xorPad_nil_right]
  | [], y :: ys, h => by simp at h
  | x :: xs, y :: ys, h => by
    have ih := memAdd_eq_xorPad xs ys (by simp at h; omega)
    simp only [memAdd, List.length_cons, List.take_succ_cons, List.take_length,
      List.zipWith_cons_cons, List.drop_succ_cons, List.cons_append, xorPad,
      List.cons.injEq, true_and]
    rw [← ih]
    simp [memAdd]

theorem xorPad_replicate_zero (k : Nat) (ys : List Nat) :
    xorPad (List.replicate k 0) ys = ys ++ List.replicate (k - ys.length) 0 := by
  induction k generalizing ys with
  | zero => cases ys <;> simp [xorPad]
  | succ k ih =>
    cases ys with
    | nil => simp [xorPad_nil_right]
    | cons y ys =>
      simp only [List.replicate_succ, xorPad, Nat.zero_xor, List.length_cons,
        List.cons_append, Nat.succ_sub_succ]
      rw [ih]

theorem xorPad_append_replicate (xs ys : List Nat) (k : Nat)
    (h : ys.length ≤ xs.length + k) :
    xorPad (xs ++ List.replicate k 0) ys =
      xorPad xs ys ++ List.replicate (xs.length + k - (xorPad xs ys).length) 0 := by
  induction xs generalizing ys with
  | nil =>
    simp only [List.nil_append, List.length_nil, Nat.zero_add]
    rw [xorPad_replicate_zero]
    cases ys <;> simp [xorPad]
  | cons x xs ih =>
    cases ys with
    | nil =>
      rw [xorPad_nil_right, xorPad_nil_right]
      simp
    | cons y ys =>
      simp only [List.cons_append, xorPad, List.length_cons, List.append_eq]
      rw [ih ys (by simp at h; omega)]
      simp only [List.cons_append, List.cons.injEq, true_and]
      congr 2
      omega

theorem foldl_memAdd_spec (L : Nat) :
    ∀ (bs : List (List Nat)) (X : List Nat), (∀ b ∈ bs, b.length ≤ L) → X.length ≤ L →
    bs.foldl (fun acc b => (memAdd acc.1 b b.length, max acc.2 b.length))
        (X ++ List.replicate (L - X.length) 0, X.length)
      = (bs.foldl xorPad X ++ List.replicate (L - (bs.foldl xorPad X).length) 0,
         (bs.foldl xorPad X).length)
  | [], X, _, _ => rfl
  | b :: bs, X, hb, hX => by
    have hbL : b.length ≤ L := hb b (List.mem_cons_self ..)
    have hmax : max X.length b.length = (xorPad X b).length := (xorPad_length X b).symm
    have hstep : memAdd (X ++ List.replicate (L - X.length) 0) b b.length
        = xorPad X b ++ List.replicate (L - (xorPad X b).length) 0 := by
      rw [memAdd_eq_xorPad _ _ (by simp; omega)]
      rw [xorPad_append_replicate _ _ _ (by omega)]
      congr 2
      omega
    simp only [List.foldl_cons]
    rw [hstep]
    have hXb : (xorPad X b).length ≤ L := by rw [← hmax]; omega
    have := foldl_memAdd_spec L bs (xorPad X b)
      (fun b2 h2 => hb b2 (List.mem_cons_of_mem _ h2)) hXb
    rw [← this]
    congr 1
    rw [hmax]

theorem parityAccumulate_xorSum (w : EncoderPacketWindow)
    (hcnt : w.firstUnremovedElement < w.count)
    (hlen : ∀ i, w.firstUnremovedElement ≤ i → i < w.count →
        (getWindowElement w i).buffer.length ≤ w.longestPacket) :
    (parityAccumulate w w.firstUnremovedElement
        ((getWindowElement w w.firstUnremovedElement).buffer ++
          List.replicate (w.longestPacket -
            (getWindowElement w w.firstUnremovedElement).buffer.length) 0)
        (getWindowElement w w.firstUnremovedElement).buffer.length).1.take
      (parityAccumulate w w.firstUnremovedElement
        ((getWindowElement w w.firstUnremovedElement).buffer ++
          List.replicate (w.longestPacket -
            (getWindowElement w w.firstUnremovedElement).buffer.length) 0)
        (getWindowElement w w.firstUnremovedElement).buffer.length).2
      = xorSum (unremovedBuffers w) := by
  have hb0 : (getWindowElement w w.firstUnremovedElement).buffer.length ≤
      w.longestPacket := hlen w.firstUnremovedElement le_rfl hcnt
  have htail : ∀ b ∈ (List.range (w.count - (w.firstUnremovedElement + 1))).map
      (fun i => (getWindowElement w (w.firstUnremovedElement + 1 + i)).buffer),
      b.length ≤ w.longestPacket := by
    intro b hb
    obtain ⟨i, hi, rfl⟩ := List.mem_map.mp hb
    have hi2 : i < w.count - (w.firstUnremovedElement + 1) := List.mem_range.mp hi
    exact hlen (w.firstUnremovedElement + 1 + i) (by omega) (by omega)
  have hbridge : parityAccumulate w w.firstUnremovedElement
        ((getWindowElement w w.firstUnremovedElement).buffer ++
          List.replicate (w.longestPacket -
            (getWindowElement w w.firstUnremovedElement).buffer.length) 0)
        (getWindowElement w w.firstUnremovedElement).buffer.length
      = ((List.range (w.count - (w.firstUnremovedElement + 1))).map
          (fun i => (getWindowElement w (w.firstUnremovedElement + 1 + i)).buffer)).foldl
          (fun acc b => (memAdd acc.1 b b.length, max acc.2 b.length))
          ((getWindowElement w w.firstUnremovedElement).buffer ++
            List.replicate (w.longestPacket -
              (getWindowElement w w.firstUnremovedElement).buffer.length) 0,
           (getWindowElement w w.firstUnremovedElement).buffer.length) := by
    unfold parityAccumulate
    rw [List.foldl_map, List.foldl_map]
  have hub : unremovedBuffers w = (getWindowElement w w.firstUnremovedElement).buffer ::
      (List.range (w.count - (w.firstUnremovedElement + 1))).map
        (fun i => (getWindowElement w (w.firstUnremovedElement + 1 + i)).buffer) := by
    unfold unremovedBuffers getUnacknowledgedCount
    have hn : w.count - w.firstUnremovedElement =
        (w.count - (w.firstUnremovedElement + 1)) + 1 := by omega
    rw [hn, List.range_succ_eq_map]
    simp only [List.map_cons, Nat.add_zero, List.map_map]
    congr 1
    apply List.map_congr_left
    intro i _
    simp only [Function.comp]
    congr 2
    omega
  rw [hbridge, foldl_memAdd_spec w.longestPacket _ _ htail hb0]
  simp only []
  rw [List.take_left]
  rw [hub]
  unfold xorSum
  simp only [List.foldl_cons]
  rw [xorPad_nil_left]

theorem windowCoreEq_rfl (w : EncoderPacketWindow) : windowCoreEq w w :=
  ⟨rfl, rfl, rfl, rfl, rfl, rfl, rfl, rfl⟩

theorem windowCoreEq_trans {w w2 w3 : EncoderPacketWindow}
    (h1 : windowCoreEq w w2) (h2 : windowCoreEq w2 w3) : windowCoreEq w w3 := by
  unfold windowCoreEq at h1 h2 ⊢
  exact ⟨h2.1.trans h1.1, h2.2.1.trans h1.2.1, h2.2.2.1.trans h1.2.2.1,
    h2.2.2.2.1.trans h1.2.2.2.1, h2.2.2.2.2.1.trans h1.2.2.2.2.1,
    h2.2.2.2.2.2.1.trans h1.2.2.2.2.2.1, h2.2.2.2.2.2.2.1.trans h1.2.2.2.2.2.2.1,
    h2.2.2.2.2.2.2.2.trans h1.2.2.2.2.2.2.2⟩

theorem getSumLoop_alloc (n : Nat) : ∀ (w : EncoderPacketWindow) (s e eEnd : Nat)
    (sum : List Nat), eEnd ≤ e + n → (getSumLoop w true s e eEnd sum).1 = false := by
  induction n with
  | zero =>
    intro w s e eEnd sum hle
    unfold getSumLoop
    simp only [Bool.not_true, Bool.false_and, Bool.false_eq_true, if_false]
    rw [if_neg (by simp only [kColumnLaneCount]; omega)]
  | succ n ih =>
    intro w s e eEnd sum hle
    unfold getSumLoop
    simp only [Bool.not_true, Bool.false_and, Bool.false_eq_true, if_false]
    split
    · rename_i hlt
      exact ih _ _ _ _ _ (by simp only [kColumnLaneCount] at hlt ⊢; omega)
    · rfl

theorem getSum_alloc_core (w : EncoderPacketWindow) (l s eEnd : Nat) :
    windowCoreEq w ((getSum w true l s eEnd).1) ∧
    ((getSum w true l s eEnd).1).sumEndElement = w.sumEndElement := by
  unfold getSum
  simp only []
  split
  · split
    · rename_i hcond
      simp only [Bool.not_true, Bool.false_and, Bool.and_false] at hcond
      exact Bool.noConfusion hcond
    · split <;> split
      all_goals rename_i hres
      · rw [getSumLoop_alloc eEnd w s _ eEnd _ (Nat.le_add_left eEnd _)] at hres
        exact Bool.noConfusion hres
      · exact ⟨⟨rfl, rfl, rfl, rfl, rfl, rfl, rfl, rfl⟩, rfl⟩
      · rw [getSumLoop_alloc eEnd w s _ eEnd _ (Nat.le_add_left eEnd _)] at hres
        exact Bool.noConfusion hres
      · exact ⟨⟨rfl, rfl, rfl, rfl, rfl, rfl, rfl, rfl⟩, rfl⟩
  · exact ⟨⟨rfl, rfl, rfl, rfl, rfl, rfl, rfl, rfl⟩, rfl⟩

theorem addDenseColumns_alloc_core (w : EncoderPacketWindow) (row : Nat)
    (recovery product : List Nat) (recoveryBytes : Nat) :
    windowCoreEq w ((addDenseColumns w true row recovery product recoveryBytes).1) ∧
    ((addDenseColumns w true row recovery product recoveryBytes).1).sumEndElement
      = w.count := by
  unfold addDenseColumns
  simp only []
  have key : ∀ (res : EncoderPacketWindow × List Nat × List Nat), windowCoreEq w res.1 →
      windowCoreEq w ({ res.1 with sumEndElement := res.1.count }) ∧
      ({ res.1 with sumEndElement := res.1.count } : EncoderPacketWindow).sumEndElement
        = w.count := by
    intro res h
    exact ⟨⟨h.1, h.2.1, h.2.2.1, h.2.2.2.1, h.2.2.2.2.1, h.2.2.2.2.2.1,
      h.2.2.2.2.2.2.1, h.2.2.2.2.2.2.2⟩, h.1⟩
  refine key _ ?_
  refine foldl_preserve
    (fun (acc : EncoderPacketWindow × List Nat × List Nat) => windowCoreEq w acc.1)
    _ ?_ _ _ (windowCoreEq_rfl w)
  intro acc laneIndex hacc
  refine foldl_preserve
    (fun (acc2 : EncoderPacketWindow × List Nat × List Nat) => windowCoreEq w acc2.1)
    _ ?_ _ _ ?_
  · intro acc2 sumIndex hacc2
    split
    · exact windowCoreEq_trans hacc2
        (getSum_alloc_core acc2.1 laneIndex sumIndex acc2.1.count).1
    · exact hacc2
  · refine foldl_preserve
      (fun (acc2 : EncoderPacketWindow × List Nat × List Nat) => windowCoreEq w acc2.1)
      _ ?_ _ _ hacc
    intro acc2 sumIndex hacc2
    split
    · exact windowCoreEq_trans hacc2
        (getSum_alloc_core acc2.1 laneIndex sumIndex acc2.1.count).1
    · exact hacc2

theorem encodeSiamese_alloc_fields (e : Encoder) (u : Nat)
    (h : e.window.firstUnremovedElement < kEncoderRemoveThreshold) :
    windowCoreEq e.window (((e.encodeSiamese true u).2.2).window) ∧
    (((e.encodeSiamese true u).2.2).window).sumEndElement = e.window.count ∧
    ((e.encodeSiamese true u).2.2).nextParityColumn = e.nextParityColumn := by
  unfold Encoder.encodeSiamese
  simp only []
  rw [if_neg (Nat.not_le.mpr h)]
  simp only [Bool.not_true, Bool.false_eq_true, if_false]
  refine ⟨?_, ?_, True.intro⟩
  · exact (addDenseColumns_alloc_core _ _ _ _ _).1
  · exact (addDenseColumns_alloc_core _ _ _ _ _).2

/-- The parity branch of `Encoder::GenerateCauchyPacket` (with successful
allocation): row 0 is emitted, the recovery payload is the padded XOR of
the unremoved originals, and `NextParityColumn` is advanced to
`ElementToColumn(FirstUnremovedElement) + unacknowledgedCount`. -/
theorem generateCauchyPacket_parity (e : Encoder)
    (hunack : e.window.firstUnremovedElement + 2 ≤ e.window.count)
    (hpar : columnToElement e.window e.nextParityColumn ≤ e.window.firstUnremovedElement ∨
        isColumnDeltaNegative (columnToElement e.window e.nextParityColumn) = true)
    (hlen : ∀ i, e.window.firstUnremovedElement ≤ i → i < e.window.count →
        (getWindowElement e.window i).buffer.length ≤ e.window.longestPacket) :
    (e.generateCauchyPacket true).1 = .success ∧
    (e.generateCauchyPacket true).2.1 = some (xorSum (unremovedBuffers e.window) ++
      serializeFooterRecoveryMetadata
        { sumCount := getUnacknowledgedCount e.window
          ldpcCount := getUnacknowledgedCount e.window
          columnStart := elementToColumn e.window e.window.firstUnremovedElement
          row := 0 }) ∧
    ((e.generateCauchyPacket true).2.2).nextParityColumn =
      addColumns (elementToColumn e.window e.window.firstUnremovedElement)
        (getUnacknowledgedCount e.window) := by
  rw [Encoder.generateCauchyPacket]
  simp only [Bool.not_true, Bool.false_eq_true, if_false]
  rw [if_pos hpar]
  refine ⟨rfl, ?_, rfl⟩
  rw [parityAccumulate_xorSum e.window (by omega) hlen]

/-- C7 counterexample: a reachable state (six originals, one Siamese
recovery emission, `remove_before` of column 4) on which `encode` emits a
parity recovery packet (footer row 0, payload the padded XOR of the two
unremoved originals) through the stop-using-sums route into
`GenerateCauchyPacket`, yet sets `next_parity_column` to
`element_to_column(first_unremoved_element) + unack = 6` and not to
`column_start + unack = 2` as the claim requires. -/
theorem c7_counterexample :
    (parityAfterSumsEncoder.encode true).1 = SiameseResult.success ∧
    (parityAfterSumsEncoder.encode true).2.1 =
      some (xorSum (unremovedBuffers parityAfterSumsEncoder.window) ++
        serializeFooterRecoveryMetadata
          { sumCount := 2, ldpcCount := 2, columnStart := 4, row := 0 }) ∧
    xorSum (unremovedBuffers parityAfterSumsEncoder.window) = [0, 3] ∧
    ((parityAfterSumsEncoder.encode true).2.2).nextParityColumn = 6 ∧
    addColumns parityAfterSumsEncoder.window.columnStart
      (getUnacknowledgedCount parityAfterSumsEncoder.window) = 2 ∧
    (6 : Nat) ≠ 2 := by
  have henc : sixPacketEncoder.encode true =
      ({ sixPacketEncoder with window := (resetSums sixPacketEncoder.window
          sixPacketEncoder.window.firstUnremovedElement) } : Encoder).encodeSiamese true
        (getUnacknowledgedCount sixPacketEncoder.window) := by
    rw [Encoder.encode]
    simp only []
    rw [if_neg (by decide), if_neg (by decide), if_neg (by decide), if_pos (by decide),
      if_neg (by decide)]
  obtain ⟨⟨hc, hf, hcs, ho, hl, hss, her, hd⟩, hse, hnpc⟩ :=
    encodeSiamese_alloc_fields
      ({ sixPacketEncoder with window := (resetSums sixPacketEncoder.window
          sixPacketEncoder.window.firstUnremovedElement) } : Encoder)
      (getUnacknowledgedCount sixPacketEncoder.window) (by decide)
  have hRc : ((sixPacketEncoder.encode true).2.2).window.count = 6 := by
    rw [henc]; exact hc.trans (by decide)
  have hRf : ((sixPacketEncoder.encode true).2.2).window.firstUnremovedElement = 0 := by
    rw [henc]; exact hf.trans (by decide)
  have hRcs : ((sixPacketEncoder.encode true).2.2).window.columnStart = 0 := by
    rw [henc]; exact hcs.trans (by decide)
  have hRo : ((sixPacketEncoder.encode true).2.2).window.originals =
      sixPacketEncoder.window.originals := by
    rw [henc]; exact ho.trans (by decide)
  have hRl : ((sixPacketEncoder.encode true).2.2).window.longestPacket = 2 := by
    rw [henc]; exact hl.trans (by decide)
  have hRss : ((sixPacketEncoder.encode true).2.2).window.sumStartElement = 0 := by
    rw [henc]; exact hss.trans (by decide)
  have hRse : ((sixPacketEncoder.encode true).2.2).window.sumEndElement = 6 := by
    rw [henc]; exact hse.trans (by decide)
  have hRer : ((sixPacketEncoder.encode true).2.2).window.sumErasedCount = 0 := by
    rw [henc]; exact her.trans (by decide)
  have hRd : ((sixPacketEncoder.encode true).2.2).window.emergencyDisabled = false := by
    rw [henc]; exact hd.trans (by decide)
  have hRnpc : ((sixPacketEncoder.encode true).2.2).nextParityColumn = 0 := by
    rw [henc]; exact hnpc.trans (by decide)
  have hrb : removeBefore ((sixPacketEncoder.encode true).2.2).window 4 =
      { ((sixPacketEncoder.encode true).2.2).window with firstUnremovedElement := 4 } := by
    unfold removeBefore
    rw [if_neg (by rw [hRd]; exact Bool.false_ne_true)]
    simp only []
    have hfke : columnToElement ((sixPacketEncoder.encode true).2.2).window 4 = 4 := by
      unfold columnToElement
      rw [hRcs]
      decide
    rw [hfke]
    have hinv : invalidElement ((sixPacketEncoder.encode true).2.2).window 4 = false := by
      unfold invalidElement
      rw [hRc]
      decide
    rw [hinv]
    rw [if_neg (by exact Bool.false_ne_true)]
    rw [if_pos (by rw [hRf]; decide)]
  have hPdef : parityAfterSumsEncoder =
      Encoder.removeBefore ((sixPacketEncoder.encode true).2.2) 4 := rfl
  have hW : parityAfterSumsEncoder.window =
      { ((sixPacketEncoder.encode true).2.2).window with firstUnremovedElement := 4 } := by
    rw [hPdef, Encoder.removeBefore, hrb]
  have hPnpc : parityAfterSumsEncoder.nextParityColumn = 0 := by
    rw [hPdef, Encoder.removeBefore]
    exact hRnpc
  have hPc : parityAfterSumsEncoder.window.count = 6 := by rw [hW]; exact hRc
  have hPf : parityAfterSumsEncoder.window.firstUnremovedElement = 4 := by rw [hW]
  have hPcs : parityAfterSumsEncoder.window.columnStart = 0 := by rw [hW]; exact hRcs
  have hPo : parityAfterSumsEncoder.window.originals =
      sixPacketEncoder.window.originals := by rw [hW]; exact hRo
  have hPl : parityAfterSumsEncoder.window.longestPacket = 2 := by rw [hW]; exact hRl
  have hPss : parityAfterSumsEncoder.window.sumStartElement = 0 := by rw [hW]; exact hRss
  have hPse : parityAfterSumsEncoder.window.sumEndElement = 6 := by rw [hW]; exact hRse
  have hPer : parityAfterSumsEncoder.window.sumErasedCount = 0 := by rw [hW]; exact hRer
  have hPd : parityAfterSumsEncoder.window.emergencyDisabled = false := by
    rw [hW]; exact hRd
  have hPu : getUnacknowledgedCount parityAfterSumsEncoder.window = 2 := by
    unfold getUnacknowledgedCount
    rw [hPc, hPf]
  have hroute : parityAfterSumsEncoder.encode true =
      ({ parityAfterSumsEncoder with window := { parityAfterSumsEncoder.window with
          sumEndElement := parityAfterSumsEncoder.window.sumStartElement } } :
        Encoder).generateCauchyPacket true := by
    rw [Encoder.encode]
    simp only []
    rw [if_neg (by rw [hPd]; exact Bool.false_ne_true)]
    rw [if_neg (by rw [hPc]; decide)]
    rw [if_neg (by rw [hPu]; decide)]
    rw [if_neg (by rw [hPse, hPss, hPc, hPer]; decide)]
    rw [if_pos (by rw [hPu]; exact Or.inl (by decide))]
  have hunack2 : parityAfterSumsEncoder.window.firstUnremovedElement + 2 ≤
      parityAfterSumsEncoder.window.count := by rw [hPf, hPc]
  have hlen2 : ∀ i, parityAfterSumsEncoder.window.firstUnremovedElement ≤ i →
      i < parityAfterSumsEncoder.window.count →
      (getWindowElement parityAfterSumsEncoder.window i).buffer.length ≤
        parityAfterSumsEncoder.window.longestPacket := by
    intro i h1 h2
    rw [hPf] at h1
    rw [hPc] at h2
    unfold getWindowElement
    rw [hPo, hPl]
    interval_cases i <;> decide
  have hpar2 : columnToElement parityAfterSumsEncoder.window
        parityAfterSumsEncoder.nextParityColumn ≤
        parityAfterSumsEncoder.window.firstUnremovedElement ∨
      isColumnDeltaNegative (columnToElement parityAfterSumsEncoder.window
        parityAfterSumsEncoder.nextParityColumn) = true := by
    left
    unfold columnToElement
    rw [hPnpc, hPcs, hPf]
    decide
  obtain ⟨hg1, hg2, hg3⟩ := generateCauchyPacket_parity
    ({ parityAfterSumsEncoder with window := { parityAfterSumsEncoder.window with
        sumEndElement := parityAfterSumsEncoder.window.sumStartElement } } : Encoder)
    hunack2 hpar2 hlen2
  have hg2b : (({ parityAfterSumsEncoder with window := { parityAfterSumsEncoder.window with
        sumEndElement := parityAfterSumsEncoder.window.sumStartElement } } :
        Encoder).generateCauchyPacket true).2.1 =
      some (xorSum (unremovedBuffers parityAfterSumsEncoder.window) ++
        serializeFooterRecoveryMetadata
          { sumCount := getUnacknowledgedCount parityAfterSumsEncoder.window
            ldpcCount := getUnacknowledgedCount parityAfterSumsEncoder.window
            columnStart := elementToColumn parityAfterSumsEncoder.window
              parityAfterSumsEncoder.window.firstUnremovedElement
            row := 0 }) := hg2
  have hg3b : ((({ parityAfterSumsEncoder with window := { parityAfterSumsEncoder.window with
        sumEndElement := parityAfterSumsEncoder.window.sumStartElement } } :
        Encoder).generateCauchyPacket true).2.2).nextParityColumn =
      addColumns (elementToColumn parityAfterSumsEncoder.window
          parityAfterSumsEncoder.window.firstUnremovedElement)
        (getUnacknowledgedCount parityAfterSumsEncoder.window) := hg3
  have hcol4 : elementToColumn parityAfterSumsEncoder.window
      parityAfterSumsEncoder.window.firstUnremovedElement = 4 := by
    unfold elementToColumn
    rw [hPf, hPcs]
    decide
  have hub : xorSum (unremovedBuffers parityAfterSumsEncoder.window) = [0, 3] := by
    unfold unremovedBuffers getUnacknowledgedCount getWindowElement
    rw [hPc, hPf, hPo]
    decide
  refine ⟨?_, ?_, hub, ?_, ?_, by decide⟩
  · rw [hroute]
    exact hg1
  · rw [hroute, hg2b, hPu, hcol4]
  · rw [hroute, hg3b, hPu, hcol4]
    decide
  · rw [hPcs, hPu]
    decide

/-- C7 (amended): whenever `encode` routes into the Cauchy/parity
generator (at least two unremoved originals, and either the sum range is
empty or oversized with the in-flight count at most the Cauchy threshold,
or the sums are live but small enough that the stop-using-sums branch
fires) and the parity-row condition holds, the recovery payload is the
byte-wise XOR (zero-padding shorter buffers) of every unremoved original's
stored buffer with a row-0 footer, and `next_parity_column` becomes
`element_to_column(first_unremoved_element) + unack (mod 2^22)`; the
single-packet path also emits footer row 0 but leaves
`next_parity_column` unchanged. -/
theorem c7_parity_packet (e : Encoder)
    (hdis : e.window.emergencyDisabled = false)
    (hunack : e.window.firstUnremovedElement + 2 ≤ e.window.count)
    (hroute :
      (e.window.sumEndElement ≤ e.window.sumStartElement ∨
        siameseMaxPackets ≤ e.window.count - e.window.sumStartElement +
          e.window.sumErasedCount) ∧
        getUnacknowledgedCount e.window ≤ kCauchyThreshold ∨
      ¬ (e.window.sumEndElement ≤ e.window.sumStartElement ∨
        siameseMaxPackets ≤ e.window.count - e.window.sumStartElement +
          e.window.sumErasedCount) ∧
        (getUnacknowledgedCount e.window ≤ kSumResetThreshold ∨
          e.window.count - e.window.sumStartElement + e.window.sumErasedCount ≤
            kCauchyThreshold))
    (hpar : columnToElement e.window e.nextParityColumn ≤ e.window.firstUnremovedElement ∨
        isColumnDeltaNegative (columnToElement e.window e.nextParityColumn) = true)
    (hlen : ∀ i, e.window.firstUnremovedElement ≤ i → i < e.window.count →
        (getWindowElement e.window i).buffer.length ≤ e.window.longestPacket) :
    (e.encode true).1 = .success ∧
    (e.encode true).2.1 = some (xorSum (unremovedBuffers e.window) ++
      serializeFooterRecoveryMetadata
        { sumCount := getUnacknowledgedCount e.window
          ldpcCount := getUnacknowledgedCount e.window
          columnStart := elementToColumn e.window e.window.firstUnremovedElement
          row := 0 }) ∧
    ((e.encode true).2.2).nextParityColumn =
      addColumns (elementToColumn e.window e.window.firstUnremovedElement)
        (getUnacknowledgedCount e.window) ∧
    (∀ e2 : Encoder, e2.window.emergencyDisabled = false →
      e2.window.count = e2.window.firstUnremovedElement + 1 →
      ((e2.encode true).2.2).nextParityColumn = e2.nextParityColumn) := by
  have hcount0 : ¬ (e.window.count = 0) := by omega
  have hu1 : ¬ (getUnacknowledgedCount e.window = 1) := by
    unfold getUnacknowledgedCount
    omega
  have hsingle : ∀ e2 : Encoder, e2.window.emergencyDisabled = false →
      e2.window.count = e2.window.firstUnremovedElement + 1 →
      ((e2.encode true).2.2).nextParityColumn = e2.nextParityColumn := by
    intro e2 hdis2 hone2
    have hc0 : ¬ (e2.window.count = 0) := by omega
    have hu : getUnacknowledgedCount e2.window = 1 := by
      unfold getUnacknowledgedCount
      omega
    rw [Encoder.encode, if_neg (by simp [hdis2])]
    simp only []
    rw [if_neg hc0, if_pos hu]
    rw [Encoder.generateSinglePacket]
    simp only [Bool.not_true, Bool.false_eq_true, if_false]
  rw [Encoder.encode]
  rw [if_neg (by simp [hdis])]
  simp only []
  rw [if_neg hcount0, if_neg hu1]
  rcases hroute with ⟨hs, hth⟩ | ⟨hs, hth⟩
  · rw [if_pos hs, if_pos hth]
    obtain ⟨hg1, hg2, hg3⟩ := generateCauchyPacket_parity e hunack hpar hlen
    exact ⟨hg1, hg2, hg3, hsingle⟩
  · rw [if_neg hs, if_pos hth]
    obtain ⟨hg1, hg2, hg3⟩ := generateCauchyPacket_parity
      ({ e with window := { e.window with sumEndElement := e.window.sumStartElement } } :
        Encoder) hunack hpar hlen
    exact ⟨hg1, hg2, hg3, hsingle⟩

/-- C7 witness (for the amended theorem). -/
theorem c7_parity_packet_witness :
    ((((initEncoder.add true [1]).2.2.add true [2]).2.2.add true [3]).2.2.encode true).2.1 =
      some ([1, 0] ++ serializeFooterRecoveryMetadata
        { sumCount := 3, ldpcCount := 3, columnStart := 0, row := 0 }) ∧
    (((((initEncoder.add true [1]).2.2.add true [2]).2.2.add true [3]).2.2.encode true
      ).2.2).nextParityColumn = 3 ∧
    (((initEncoder.add true [1]).2.2.encode true).2.2).nextParityColumn =
      ((initEncoder.add true [1]).2.2).nextParityColumn := by
  have h := c7_parity_packet
    (((initEncoder.add true [1]).2.2.add true [2]).2.2.add true [3]).2.2
    (by decide) (by decide) (by decide) (Or.inl (by decide))
    (by
      intro i _ hi
      have h3 : i < 3 := by
        have hc : (((initEncoder.add true [1]).2.2.add true [2]).2.2.add true
            [3]).2.2.window.count = 3 := by decide
        omega
      interval_cases i <;> decide)
  refine ⟨?_, ?_, ?_⟩
  · rw [h.2.1]
    decide
  · rw [h.2.2.1]
    decide
  · exact h.2.2.2 (initEncoder.add true [1]).2.2 (by decide) (by decide)

end Siamese
